import Mathlib

/-! Collation element codec (collation.h).

A shallow embedding of the static helper functions of the class `Collation`
(`source/i18n/collation.h`) and theorems about them.

Machine-integer conventions used throughout:

* a `uint32_t` value is a natural number `n` with `n < 2 ^ 32`; 32-bit
  unsigned arithmetic that can leave that range is reduced `% 2 ^ 32`;
* an `int64_t` value is an integer; the bitwise operators of C++ act on its
  two's-complement bit pattern, so the 64-bit operations are computed on the
  pattern (a natural number below `2 ^ 64`) and the result is read back as a
  signed value by `toInt64`. The left shift of an `int64_t` is taken modulo
  `2 ^ 64`;
* `bits64` gives the unsigned 64-bit pattern of an `int64_t` value.
-/

namespace Collation

/-! ## Machine arithmetic -/

/-- Left shift of a `uint32_t`: bits shifted beyond bit 31 are lost. -/
def shl32 (x k : Nat) : Nat := (x <<< k) % 2 ^ 32

/-- Subtraction of `uint32_t` values, wrapping around. -/
def sub32 (x y : Nat) : Nat := (x + 2 ^ 32 - y) % 2 ^ 32

/-- Left shift of a 64-bit pattern: bits shifted beyond bit 63 are lost. -/
def shl64 (x k : Nat) : Nat := (x <<< k) % 2 ^ 64

/-- Signed reading (`int64_t`) of a 64-bit two's-complement pattern. -/
def toInt64 (bits : Nat) : Int :=
  if bits < 2 ^ 63 then (bits : Int) else (bits : Int) - 2 ^ 64

/-- Signed reading (`int32_t`) of a 32-bit two's-complement pattern. -/
def toInt32 (bits : Nat) : Int :=
  if bits < 2 ^ 31 then (bits : Int) else (bits : Int) - 2 ^ 32

/-- Unsigned 64-bit pattern of an `int64_t` value. -/
def bits64 (x : Int) : Nat := (x % 2 ^ 64).toNat

/-- Unsigned 32-bit two's-complement pattern of an `int32_t` value. -/
def bits32 (x : Int) : Nat := (x % 2 ^ 32).toNat

/-- Bitwise AND of two `int32_t` values, computed on their patterns. -/
def and32 (x y : Int) : Int := toInt32 (bits32 x &&& bits32 y)

/-- Bitwise OR of two `int32_t` values, computed on their patterns. -/
def or32 (x y : Int) : Int := toInt32 (bits32 x ||| bits32 y)

/-- Bitwise complement of an `int32_t` value. -/
def not32 (x : Int) : Int := toInt32 (2 ^ 32 - 1 - bits32 x)

/-- Right shift of an `int32_t` value, keeping the sign (arithmetic shift). -/
def sar32 (x k : Int) : Int := x / 2 ^ k.toNat

/-- Left shift of an `int32_t` value: bits shifted beyond bit 31 are lost. -/
def shl32i (x k : Int) : Int := toInt32 (shl32 (bits32 x) k.toNat)

/-- Reduction of an integer to the `int32_t` range, wrapping around. -/
def wrap32 (x : Int) : Int := toInt32 (bits32 x)

/-- The `int32_t` value `x` with bit `k` of its pattern flipped. -/
def flipBit (x : Int) (k : Nat) : Int := toInt32 (bits32 x ^^^ 2 ^ k)

/-! ## Constants of `class Collation` -/

def TERMINATOR_BYTE : Nat := 0
def LEVEL_SEPARATOR_BYTE : Nat := 1
def MERGE_SEPARATOR_BYTE : Nat := 2
def MERGE_SEPARATOR_PRIMARY : Nat := 0x02000000
def MERGE_SEPARATOR_WEIGHT16 : Nat := 0x0200
def MERGE_SEPARATOR_LOWER32 : Nat := 0x02000200
def MERGE_SEPARATOR_CE32 : Nat := 0x02000202
def PRIMARY_COMPRESSION_LOW_BYTE : Nat := 3
def PRIMARY_COMPRESSION_HIGH_BYTE : Nat := 0xff
def COMMON_BYTE : Nat := 5
def COMMON_WEIGHT16 : Nat := 0x0500
def COMMON_SECONDARY_CE : Nat := 0x05000000
def COMMON_TERTIARY_CE : Nat := 0x0500
def COMMON_SEC_AND_TER_CE : Nat := 0x05000500
def ONLY_TERTIARY_MASK : Nat := 0x3f3f
def CASE_AND_TERTIARY_MASK : Nat := 0xff3f
def UNASSIGNED_IMPLICIT_BYTE : Nat := 0xfd
def TRAIL_WEIGHT_BYTE : Nat := 0xfe
def MAX_PRIMARY : Nat := 0xfeff0000
def MAX_REGULAR_CE32 : Nat := 0xfeff0505
def SPECIAL_BYTE : Nat := 0xff
def MIN_SPECIAL_CE32 : Nat := 0xff000000
def UNASSIGNED_CE32 : Nat := 0xffffffff
def NO_CE_PRIMARY : Nat := 1
def NO_CE_WEIGHT16 : Nat := 0x0100
def NO_CE : Int := 0x101000100

/-! ## Static helper functions -/

/-- Embeds `static inline UBool isSpecialCE32(uint32_t ce32)`. -/
def isSpecialCE32 (ce32 : Nat) : Bool :=
  decide (ce32 ≥ MIN_SPECIAL_CE32)

/-- Embeds `static inline int32_t getSpecialCE32Tag(uint32_t ce32)`. -/
def getSpecialCE32Tag (ce32 : Nat) : Int :=
  toInt32 ((ce32 >>> 20) &&& 0xf)

/-- Embeds `static inline int64_t ceFromCE32(uint32_t ce32)`:
returns a 64-bit CE from a non-special CE32. -/
def ceFromCE32 (ce32 : Nat) : Int :=
  let tertiary := ce32 &&& 0xff
  if tertiary > 1 then
    -- normal form ppppsstt -> pppp0000ss00tt00
    toInt64 (shl64 (ce32 &&& 0xffff0000) 32 ||| shl32 (ce32 &&& 0xff00) 16 ||| shl32 tertiary 8)
  else if tertiary = 1 then
    -- long-primary form pppppp01 -> pppppp00050000500
    toInt64 (shl64 (sub32 ce32 1) 32 ||| COMMON_SEC_AND_TER_CE)
  else
    -- long-secondary form sssstt00 -> 00000000sssstt00
    toInt64 ce32

/-- Embeds `static inline UBool isLongPrimaryCE32(uint32_t ce32)`. -/
def isLongPrimaryCE32 (ce32 : Nat) : Bool :=
  !isSpecialCE32 ce32 && decide (ce32 &&& 0xff = 1)

/-- Embeds `static inline uint32_t primaryFromLongPrimaryCE32(uint32_t ce32)`. -/
def primaryFromLongPrimaryCE32 (ce32 : Nat) : Nat :=
  sub32 ce32 1

/-- Embeds `static inline uint32_t reorder(const uint8_t reorderTable[256], uint32_t primary)`.
The table is an array of bytes; a read outside the array has no defined
result and is `none`. -/
def reorder (reorderTable : Array (Fin 256)) (primary : Nat) : Option Nat :=
  match reorderTable[primary >>> 24]? with
  | some b => some (shl32 b.val 24 ||| (primary &&& 0xffffff))
  | none => none

/-- Embeds `static inline int64_t unassignedCEFromCodePoint(UChar32 c)`.
The function `unassignedPrimaryFromCodePoint` is only declared in the header; it is
taken as a parameter, a map from code points to `uint32_t` primaries. -/
def unassignedCEFromCodePoint (unassignedPrimaryFromCodePoint : Int → Nat) (c : Int) : Int :=
  let ce := unassignedPrimaryFromCodePoint c
  toInt64 (shl64 ce 32 ||| COMMON_SEC_AND_TER_CE)

/-! ### Sort key levels (`enum Level`) -/

def NO_LEVEL : Int := 0
def PRIMARY_LEVEL : Int := 1
def SECONDARY_LEVEL : Int := 2
def CASE_LEVEL : Int := 3
def TERTIARY_LEVEL : Int := 4
def QUATERNARY_LEVEL : Int := 5
def IDENTICAL_LEVEL : Int := 6
def ZERO_LEVEL : Int := 7

/-! ## Fields of a 64-bit CE

A CE is laid out as `[primary:32][secondary:16][tertiary+case:16]`. -/

/-- Bits 63..32 of a CE. -/
def primaryField (ce : Int) : Nat := bits64 ce >>> 32

/-- Bits 31..16 of a CE. -/
def secondaryField (ce : Int) : Nat := (bits64 ce >>> 16) &&& 0xffff

/-- Bits 15..0 of a CE. -/
def tertiaryField (ce : Int) : Nat := bits64 ce &&& 0xffff

/-- Bits 31..0 of a CE. -/
def lower32 (ce : Int) : Nat := bits64 ce &&& 0xffffffff

end Collation

/-! ## Attribute values and error codes -/

/-- Modelled from the spec: the enumeration `UColAttributeValue` of the public header
`unicode/ucol.h`, which is not among the sources. Listed are the enumerators named by the
settings code, the strength levels and the use-default sentinel. -/
inductive UColAttributeValue where
  | UCOL_DEFAULT
  | UCOL_PRIMARY
  | UCOL_SECONDARY
  | UCOL_TERTIARY
  | UCOL_QUATERNARY
  | UCOL_IDENTICAL
  | UCOL_OFF
  | UCOL_ON
  | UCOL_SHIFTED
  | UCOL_NON_IGNORABLE
  | UCOL_LOWER_FIRST
  | UCOL_UPPER_FIRST
  deriving DecidableEq, Repr

/-- Modelled from the spec: the error codes of `unicode/utypes.h` (not among the sources) that
the attribute setters can leave behind: no error, or the invalid-argument error. -/
inductive UErrorCode where
  | U_ZERO_ERROR
  | U_ILLEGAL_ARGUMENT_ERROR
  deriving DecidableEq, Repr

/-! ## `struct CollationData` (collationdata.h)

The member functions read the field `options` of the object; here they take the options
word as their first argument. -/

namespace CollationData

open Collation UColAttributeValue UErrorCode

def CHECK_FCD : Int := 1
def CODAN : Int := 2
def SHIFTED : Int := 4
def ALTERNATE_MASK : Int := 0xc
def UPPER_FIRST : Int := 0x10
def CASE_FIRST : Int := 0x20
def CASE_FIRST_AND_UPPER_MASK : Int := or32 CASE_FIRST UPPER_FIRST
def CASE_LEVEL : Int := 0x40
def BACKWARD_SECONDARY : Int := 0x80
def STRENGTH_SHIFT : Int := 8
def STRENGTH_MASK : Int := 0xf00

/-- Embeds `static int32_t getStrength(int32_t options)`. -/
def getStrength (options : Int) : Int :=
  sar32 options STRENGTH_SHIFT

/-- Embeds `UColAttributeValue getFlag(int32_t bit) const`. -/
def getFlag (options bit : Int) : UColAttributeValue :=
  if and32 options bit ≠ 0 then UCOL_ON else UCOL_OFF

/-- Embeds `static uint32_t getTertiaryMask(int32_t options)`. -/
def getTertiaryMask (options : Int) : Nat :=
  if and32 options (or32 CASE_LEVEL CASE_FIRST) = CASE_FIRST then
    Collation.CASE_AND_TERTIARY_MASK
  else
    Collation.ONLY_TERTIARY_MASK

/-- Embeds `static UBool sortsTertiaryUpperCaseFirst(int32_t options)`. -/
def sortsTertiaryUpperCaseFirst (options : Int) : Bool :=
  decide (and32 options (or32 CASE_LEVEL CASE_FIRST_AND_UPPER_MASK) = CASE_FIRST_AND_UPPER_MASK)

/-- Modelled from the spec: `setStrength(value, defaultOptions)` of `CollationData`, declared in the
header and defined in a file that is not among the sources. An illegal value signals an
invalid-argument error and leaves the options word unchanged; the use-default sentinel copies
the strength bits of `defaultOptions`. The requested value is an `int32_t`: which integers
are legal strengths and which one is the sentinel is fixed by `unicode/ucol.h`, also absent,
and is taken as the parameters `legal` and `useDefault`. The result is the new options word
and the error code. -/
def setStrength (legal : Int → Bool) (useDefault : Int) (options value defaultOptions : Int) :
    Int × UErrorCode :=
  if value = useDefault then
    (or32 (and32 options (not32 STRENGTH_MASK)) (and32 defaultOptions STRENGTH_MASK), U_ZERO_ERROR)
  else if legal value then
    (or32 (and32 options (not32 STRENGTH_MASK)) (shl32i value STRENGTH_SHIFT), U_ZERO_ERROR)
  else
    (options, U_ILLEGAL_ARGUMENT_ERROR)

/-- Modelled from the spec: `setFlag(bit, value, defaultOptions)` of `CollationData` (defined in a file
that is not among the sources): sets the options bit for an on/off attribute. Legal values
are on and off; the use-default sentinel copies the bit of `defaultOptions`; any other value
signals an invalid-argument error and leaves the options word unchanged. -/
def setFlag (options bit : Int) (value : UColAttributeValue) (defaultOptions : Int) :
    Int × UErrorCode :=
  match value with
  | UCOL_ON => (or32 options bit, U_ZERO_ERROR)
  | UCOL_OFF => (and32 options (not32 bit), U_ZERO_ERROR)
  | UCOL_DEFAULT => (or32 (and32 options (not32 bit)) (and32 defaultOptions bit), U_ZERO_ERROR)
  | _ => (options, U_ILLEGAL_ARGUMENT_ERROR)

/-- Modelled from the spec: `setCaseFirst(value, defaultOptions)` of `CollationData` (defined in a file
that is not among the sources). Legal values are off, lower-first and upper-first; the
use-default sentinel copies the two case bits of `defaultOptions`; any other value signals an
invalid-argument error and leaves the options word unchanged. -/
def setCaseFirst (options : Int) (value : UColAttributeValue) (defaultOptions : Int) :
    Int × UErrorCode :=
  match value with
  | UCOL_OFF => (and32 options (not32 CASE_FIRST_AND_UPPER_MASK), U_ZERO_ERROR)
  | UCOL_LOWER_FIRST =>
    (or32 (and32 options (not32 CASE_FIRST_AND_UPPER_MASK)) CASE_FIRST, U_ZERO_ERROR)
  | UCOL_UPPER_FIRST =>
    (or32 (and32 options (not32 CASE_FIRST_AND_UPPER_MASK)) CASE_FIRST_AND_UPPER_MASK,
      U_ZERO_ERROR)
  | UCOL_DEFAULT =>
    (or32 (and32 options (not32 CASE_FIRST_AND_UPPER_MASK))
      (and32 defaultOptions CASE_FIRST_AND_UPPER_MASK), U_ZERO_ERROR)
  | _ => (options, U_ILLEGAL_ARGUMENT_ERROR)

/-- Modelled from the spec: `setAlternateHandling(value, defaultOptions)` of `CollationData` (defined in
a file that is not among the sources). Legal values are non-ignorable and shifted; the
use-default sentinel copies the alternate-handling bits of `defaultOptions`; any other value
signals an invalid-argument error and leaves the options word unchanged. -/
def setAlternateHandling (options : Int) (value : UColAttributeValue) (defaultOptions : Int) :
    Int × UErrorCode :=
  match value with
  | UCOL_NON_IGNORABLE => (and32 options (not32 ALTERNATE_MASK), U_ZERO_ERROR)
  | UCOL_SHIFTED => (or32 (and32 options (not32 ALTERNATE_MASK)) SHIFTED, U_ZERO_ERROR)
  | UCOL_DEFAULT =>
    (or32 (and32 options (not32 ALTERNATE_MASK)) (and32 defaultOptions ALTERNATE_MASK),
      U_ZERO_ERROR)
  | _ => (options, U_ILLEGAL_ARGUMENT_ERROR)

end CollationData

/-! ## `struct CollationBaseData` (collationdata.h) -/

namespace CollationBaseData

open Collation

/-- Modelled from the spec: the constant `UCOL_REORDER_CODE_FIRST` of `unicode/ucol.h` (not
among the sources), the first reorder code. With `SCRIPT_BYTE_LIMIT = 0xf8` the header says
that reorder codes `0x1008` and higher do not fit a byte, so the first one is `0x1000`. -/
def UCOL_REORDER_CODE_FIRST : Int := 0x1000

/-- Modelled from the spec: the constant `USCRIPT_INVALID_CODE` of `unicode/uscript.h` (not
among the sources), the invalid sentinel; the header notes its value `-1`. -/
def USCRIPT_INVALID_CODE : Int := -1

def SCRIPT_BYTE_LIMIT : Int := 0xf8

/-- Embeds `static int32_t scriptByteFromInt(int32_t script)`. No operation can leave the
`int32_t` range: the subtraction runs only for `script ≥ 0xf8` and the addition only for
`0 ≤ script ≤ 7`. -/
def scriptByteFromInt (script : Int) : Int :=
  if script < SCRIPT_BYTE_LIMIT then script
  else
    let script := script - UCOL_REORDER_CODE_FIRST
    if 0 ≤ script ∧ script ≤ 0xff - SCRIPT_BYTE_LIMIT then
      SCRIPT_BYTE_LIMIT + script
    else
      USCRIPT_INVALID_CODE

/-- Embeds `static int32_t scriptIntFromByte(int32_t b)`, the inverse of `scriptByteFromInt`.
The source expects `0 <= b <= 0xff`. -/
def scriptIntFromByte (b : Int) : Int :=
  if b < SCRIPT_BYTE_LIMIT then b
  else wrap32 (wrap32 (UCOL_REORDER_CODE_FIRST + b) - SCRIPT_BYTE_LIMIT)

end CollationBaseData

/-! ## `struct CollationSettings` (collationsettings.h)

The member functions read the field `options` of the object; here they take the options
word as their first argument. -/

namespace CollationSettings

open Collation UColAttributeValue UErrorCode

def CHECK_FCD : Int := 1
def NUMERIC : Int := 2
def SHIFTED : Int := 4
def ALTERNATE_MASK : Int := 0xc
def MAX_VARIABLE_SHIFT : Int := 4
def MAX_VARIABLE_MASK : Int := 0xf0
def UPPER_FIRST : Int := 0x100
def CASE_FIRST : Int := 0x200
def CASE_FIRST_AND_UPPER_MASK : Int := or32 CASE_FIRST UPPER_FIRST
def CASE_LEVEL : Int := 0x400
def BACKWARD_SECONDARY : Int := 0x800
def STRENGTH_SHIFT : Int := 12
def STRENGTH_MASK : Int := 0xf000

def MAX_VAR_SPACE : Int := 0
def MAX_VAR_PUNCT : Int := 1
def MAX_VAR_SYMBOL : Int := 2
def MAX_VAR_CURRENCY : Int := 3

/-- Embeds `static int32_t getStrength(int32_t options)`. -/
def getStrength (options : Int) : Int :=
  sar32 options STRENGTH_SHIFT

/-- Embeds `UColAttributeValue getFlag(int32_t bit) const`. -/
def getFlag (options bit : Int) : UColAttributeValue :=
  if and32 options bit ≠ 0 then UCOL_ON else UCOL_OFF

/-- Embeds `UColAttributeValue getCaseFirst() const`. -/
def getCaseFirst (options : Int) : UColAttributeValue :=
  let option := and32 options CASE_FIRST_AND_UPPER_MASK
  if option = 0 then UCOL_OFF
  else if option = CASE_FIRST then UCOL_LOWER_FIRST
  else UCOL_UPPER_FIRST

/-- Embeds `UColAttributeValue getAlternateHandling() const`. -/
def getAlternateHandling (options : Int) : UColAttributeValue :=
  if and32 options ALTERNATE_MASK = 0 then UCOL_NON_IGNORABLE else UCOL_SHIFTED

/-- Embeds `static uint32_t getTertiaryMask(int32_t options)`. -/
def getTertiaryMask (options : Int) : Nat :=
  if and32 options (or32 CASE_LEVEL CASE_FIRST) = CASE_FIRST then
    Collation.CASE_AND_TERTIARY_MASK
  else
    Collation.ONLY_TERTIARY_MASK

/-- Embeds `static UBool sortsTertiaryUpperCaseFirst(int32_t options)`. -/
def sortsTertiaryUpperCaseFirst (options : Int) : Bool :=
  decide (and32 options (or32 CASE_LEVEL CASE_FIRST_AND_UPPER_MASK) = CASE_FIRST_AND_UPPER_MASK)

/-- Embeds `inline UBool dontCheckFCD() const`. -/
def dontCheckFCD (options : Int) : Bool :=
  decide (and32 options CHECK_FCD = 0)

/-- Embeds `inline UBool hasBackwardSecondary() const`. -/
def hasBackwardSecondary (options : Int) : Bool :=
  decide (and32 options BACKWARD_SECONDARY ≠ 0)

/-- Embeds `inline UBool isNumeric() const`. -/
def isNumeric (options : Int) : Bool :=
  decide (and32 options NUMERIC ≠ 0)

/-- Modelled from the spec: `setStrength(value, defaultOptions)` of `CollationSettings`, declared in the
header and defined in a file that is not among the sources. An illegal value signals an
invalid-argument error and leaves the options word unchanged; the use-default sentinel copies
the strength bits of `defaultOptions`. The requested value is an `int32_t`: which integers
are legal strengths and which one is the sentinel is fixed by `unicode/ucol.h`, also absent,
and is taken as the parameters `legal` and `useDefault`. The result is the new options word
and the error code. -/
def setStrength (legal : Int → Bool) (useDefault : Int) (options value defaultOptions : Int) :
    Int × UErrorCode :=
  if value = useDefault then
    (or32 (and32 options (not32 STRENGTH_MASK)) (and32 defaultOptions STRENGTH_MASK), U_ZERO_ERROR)
  else if legal value then
    (or32 (and32 options (not32 STRENGTH_MASK)) (shl32i value STRENGTH_SHIFT), U_ZERO_ERROR)
  else
    (options, U_ILLEGAL_ARGUMENT_ERROR)

/-- Modelled from the spec: `setFlag(bit, value, defaultOptions)` of `CollationSettings` (defined in a file
that is not among the sources): sets the options bit for an on/off attribute. Legal values
are on and off; the use-default sentinel copies the bit of `defaultOptions`; any other value
signals an invalid-argument error and leaves the options word unchanged. -/
def setFlag (options bit : Int) (value : UColAttributeValue) (defaultOptions : Int) :
    Int × UErrorCode :=
  match value with
  | UCOL_ON => (or32 options bit, U_ZERO_ERROR)
  | UCOL_OFF => (and32 options (not32 bit), U_ZERO_ERROR)
  | UCOL_DEFAULT => (or32 (and32 options (not32 bit)) (and32 defaultOptions bit), U_ZERO_ERROR)
  | _ => (options, U_ILLEGAL_ARGUMENT_ERROR)

/-- Modelled from the spec: `setCaseFirst(value, defaultOptions)` of `CollationSettings` (defined in a file
that is not among the sources). Legal values are off, lower-first and upper-first; the
use-default sentinel copies the two case bits of `defaultOptions`; any other value signals an
invalid-argument error and leaves the options word unchanged. -/
def setCaseFirst (options : Int) (value : UColAttributeValue) (defaultOptions : Int) :
    Int × UErrorCode :=
  match value with
  | UCOL_OFF => (and32 options (not32 CASE_FIRST_AND_UPPER_MASK), U_ZERO_ERROR)
  | UCOL_LOWER_FIRST =>
    (or32 (and32 options (not32 CASE_FIRST_AND_UPPER_MASK)) CASE_FIRST, U_ZERO_ERROR)
  | UCOL_UPPER_FIRST =>
    (or32 (and32 options (not32 CASE_FIRST_AND_UPPER_MASK)) CASE_FIRST_AND_UPPER_MASK,
      U_ZERO_ERROR)
  | UCOL_DEFAULT =>
    (or32 (and32 options (not32 CASE_FIRST_AND_UPPER_MASK))
      (and32 defaultOptions CASE_FIRST_AND_UPPER_MASK), U_ZERO_ERROR)
  | _ => (options, U_ILLEGAL_ARGUMENT_ERROR)

/-- Modelled from the spec: `setAlternateHandling(value, defaultOptions)` of `CollationSettings` (defined in
a file that is not among the sources). Legal values are non-ignorable and shifted; the
use-default sentinel copies the alternate-handling bits of `defaultOptions`; any other value
signals an invalid-argument error and leaves the options word unchanged. -/
def setAlternateHandling (options : Int) (value : UColAttributeValue) (defaultOptions : Int) :
    Int × UErrorCode :=
  match value with
  | UCOL_NON_IGNORABLE => (and32 options (not32 ALTERNATE_MASK), U_ZERO_ERROR)
  | UCOL_SHIFTED => (or32 (and32 options (not32 ALTERNATE_MASK)) SHIFTED, U_ZERO_ERROR)
  | UCOL_DEFAULT =>
    (or32 (and32 options (not32 ALTERNATE_MASK)) (and32 defaultOptions ALTERNATE_MASK),
      U_ZERO_ERROR)
  | _ => (options, U_ILLEGAL_ARGUMENT_ERROR)

end CollationSettings

namespace Collation

/-! ## Arithmetic reading of masks and shifts -/

theorem land_mul_two_pow (n m k : Nat) :
    n &&& (2 ^ k * m) = 2 ^ k * ((n >>> k) &&& m) := by
  apply Nat.eq_of_testBit_eq
  intro j
  simp only [Nat.testBit_and, Nat.testBit_mul_pow_two, Nat.testBit_shiftRight]
  by_cases h : k ≤ j
  · have e : k + (j - k) = j := by omega
    simp [h, e]
  · simp [h]

theorem land_ff (n : Nat) : n &&& 0xff = n % 256 :=
  Nat.and_pow_two_sub_one_eq_mod n 8

theorem land_f (n : Nat) : n &&& 0xf = n % 16 :=
  Nat.and_pow_two_sub_one_eq_mod n 4

theorem land_ffff (n : Nat) : n &&& 0xffff = n % 65536 :=
  Nat.and_pow_two_sub_one_eq_mod n 16

theorem land_fffff (n : Nat) : n &&& 0xfffff = n % 1048576 :=
  Nat.and_pow_two_sub_one_eq_mod n 20

theorem land_ffffff (n : Nat) : n &&& 0xffffff = n % 16777216 :=
  Nat.and_pow_two_sub_one_eq_mod n 24

theorem land_ffffffff (n : Nat) : n &&& 0xffffffff = n % 4294967296 :=
  Nat.and_pow_two_sub_one_eq_mod n 32

theorem land_ff00 (n : Nat) : n &&& 0xff00 = 256 * (n / 256 % 256) := by
  have h := land_mul_two_pow n 0xff 8
  rw [land_ff, Nat.shiftRight_eq_div_pow] at h
  exact h

theorem land_ffff0000 (n : Nat) : n &&& 0xffff0000 = 65536 * (n / 65536 % 65536) := by
  have h := land_mul_two_pow n 0xffff 16
  rw [land_ffff, Nat.shiftRight_eq_div_pow] at h
  exact h

theorem land_ffffff00 (n : Nat) : n &&& 0xffffff00 = 256 * (n / 256 % 16777216) := by
  have h := land_mul_two_pow n 0xffffff 8
  rw [land_ffffff, Nat.shiftRight_eq_div_pow] at h
  exact h

/-- A bitwise OR of a multiple of `2 ^ k` with a value below `2 ^ k` is their sum. -/
theorem lor_eq_add (k a b : Nat) (ha : a % 2 ^ k = 0) (hb : b < 2 ^ k) :
    a ||| b = a + b := by
  obtain ⟨c, rfl⟩ := Nat.dvd_of_mod_eq_zero ha
  exact (Nat.mul_add_lt_is_or hb c).symm

theorem bits64_toInt64 (n : Nat) (h : n < 2 ^ 64) : bits64 (toInt64 n) = n := by
  unfold bits64 toInt64
  split <;> omega

/-! ## Bit patterns produced by `ceFromCE32` -/

theorem ceFromCE32_normal_bits (n : Nat) (h : n % 256 > 1) :
    bits64 (ceFromCE32 n)
      = (n / 65536 % 65536) * 2 ^ 48 + (n / 256 % 256) * 2 ^ 24 + (n % 256) * 2 ^ 8 := by
  have hA : shl64 (n &&& 0xffff0000) 32 = (n / 65536 % 65536) * 2 ^ 48 := by
    unfold shl64
    rw [land_ffff0000, Nat.shiftLeft_eq]
    omega
  have hB : shl32 (n &&& 0xff00) 16 = (n / 256 % 256) * 2 ^ 24 := by
    unfold shl32
    rw [land_ff00, Nat.shiftLeft_eq]
    omega
  have hC : shl32 (n &&& 0xff) 8 = (n % 256) * 2 ^ 8 := by
    unfold shl32
    rw [land_ff, Nat.shiftLeft_eq]
    omega
  have hAB : (n / 65536 % 65536) * 2 ^ 48 ||| (n / 256 % 256) * 2 ^ 24
      = (n / 65536 % 65536) * 2 ^ 48 + (n / 256 % 256) * 2 ^ 24 :=
    lor_eq_add 48 _ _ (by omega) (by omega)
  have hABC : (n / 65536 % 65536) * 2 ^ 48 + (n / 256 % 256) * 2 ^ 24 ||| (n % 256) * 2 ^ 8
      = (n / 65536 % 65536) * 2 ^ 48 + (n / 256 % 256) * 2 ^ 24 + (n % 256) * 2 ^ 8 :=
    lor_eq_add 16 _ _ (by omega) (by omega)
  have ht : n &&& 0xff > 1 := by rw [land_ff]; exact h
  unfold ceFromCE32
  dsimp only
  rw [if_pos ht, hA, hB, hC, hAB, hABC]
  apply bits64_toInt64
  omega

theorem ceFromCE32_longPrimary_bits (n : Nat) (hn : n < 2 ^ 32) (h : n % 256 = 1) :
    bits64 (ceFromCE32 n) = (n - 1) * 2 ^ 32 + 0x05000500 := by
  have hA : shl64 (sub32 n 1) 32 = (n - 1) * 2 ^ 32 := by
    unfold shl64 sub32
    rw [Nat.shiftLeft_eq]
    omega
  have hAB : (n - 1) * 2 ^ 32 ||| COMMON_SEC_AND_TER_CE = (n - 1) * 2 ^ 32 + 0x05000500 :=
    lor_eq_add 32 _ _ (by omega) (by unfold COMMON_SEC_AND_TER_CE; omega)
  have ht1 : ¬ (n &&& 0xff > 1) := by rw [land_ff]; omega
  have ht2 : n &&& 0xff = 1 := by rw [land_ff]; exact h
  unfold ceFromCE32
  dsimp only
  rw [if_neg ht1, if_pos ht2, hA, hAB]
  apply bits64_toInt64
  omega

theorem ceFromCE32_longSecondary (n : Nat) (h : n % 256 = 0) :
    ceFromCE32 n = toInt64 n := by
  have ht1 : ¬ (n &&& 0xff > 1) := by rw [land_ff]; omega
  have ht2 : ¬ (n &&& 0xff = 1) := by rw [land_ff]; omega
  unfold ceFromCE32
  dsimp only
  rw [if_neg ht1, if_neg ht2]

theorem ceFromCE32_longSecondary_bits (n : Nat) (hn : n < 2 ^ 32) (h : n % 256 = 0) :
    bits64 (ceFromCE32 n) = n := by
  rw [ceFromCE32_longSecondary n h]
  apply bits64_toInt64
  omega

theorem toInt32_of_lt (n : Nat) (h : n < 2 ^ 31) : toInt32 n = (n : Int) := by
  unfold toInt32
  rw [if_pos h]

theorem getSpecialCE32Tag_eq (v : Nat) : getSpecialCE32Tag v = ((v / 2 ^ 20 % 16 : Nat) : Int) := by
  unfold getSpecialCE32Tag
  rw [land_f, Nat.shiftRight_eq_div_pow]
  apply toInt32_of_lt
  omega

/-- The special CE32 built from tag `t` and data `d` is the sum of its three parts. -/
theorem special_word_eq (t d : Nat) (ht : t < 16) (hd : d < 2 ^ 20) :
    0xFF000000 ||| (t <<< 20) ||| d = 0xFF000000 + t * 2 ^ 20 + d := by
  rw [Nat.shiftLeft_eq, lor_eq_add 24 0xFF000000 (t * 2 ^ 20) (by omega) (by omega),
    lor_eq_add 20 (0xFF000000 + t * 2 ^ 20) d (by omega) hd]

/-- Field extraction from the normal-form pattern `pppp0000ss00tt00`. -/
theorem normal_pattern_fields (p s t : Nat) (hs : s < 256) (ht : t < 256) :
    (p * 2 ^ 48 + s * 2 ^ 24 + t * 2 ^ 8) / 2 ^ 32 = p * 65536 ∧
    (p * 2 ^ 48 + s * 2 ^ 24 + t * 2 ^ 8) / 2 ^ 16 % 65536 = s * 256 ∧
    (p * 2 ^ 48 + s * 2 ^ 24 + t * 2 ^ 8) % 65536 = t * 256 ∧
    (p * 2 ^ 48 + s * 2 ^ 24 + t * 2 ^ 8) / 2 ^ 16 / 256 % 256 = s ∧
    (p * 2 ^ 48 + s * 2 ^ 24 + t * 2 ^ 8) / 2 ^ 8 % 256 = t := by
  refine ⟨by omega, by omega, by omega, by omega, by omega⟩

/-- A 32-bit value is the sum of its three normal-form parts. -/
theorem ce32_parts (v : Nat) (hv : v < 2 ^ 32) :
    v = (v / 65536 % 65536) * 65536 + (v / 256 % 256) * 256 + v % 256 := by
  omega

/-- Result of `reorder` on a 256-entry table, as a sum. -/
theorem reorder_eq (t : Array (Fin 256)) (ht : t.size = 256) (p : Nat) (hp : p < 2 ^ 32) :
    ∃ b : Fin 256, t[p >>> 24]? = some b ∧
      reorder t p = some (b.val * 2 ^ 24 + p % 16777216) := by
  have hidx : p >>> 24 < t.size := by
    rw [Nat.shiftRight_eq_div_pow]
    omega
  refine ⟨t[p >>> 24], Array.getElem?_eq_getElem hidx, ?_⟩
  have hb : (t[p >>> 24]).val < 256 := (t[p >>> 24]).isLt
  unfold reorder shl32
  rw [Array.getElem?_eq_getElem hidx]
  simp only [Nat.shiftLeft_eq, land_ffffff]
  have e : (t[p >>> 24]).val * 2 ^ 24 % 2 ^ 32 = (t[p >>> 24]).val * 2 ^ 24 := by omega
  rw [e, lor_eq_add 24 _ _ (by omega) (by omega)]

/-! ## Arithmetic reading of the `int32_t` operations -/

theorem land_shifted_mask (n k w : Nat) :
    n &&& (2 ^ k * (2 ^ w - 1)) = 2 ^ k * (n / 2 ^ k % 2 ^ w) := by
  rw [land_mul_two_pow, Nat.and_pow_two_sub_one_eq_mod, Nat.shiftRight_eq_div_pow]

theorem bits32_natCast (m : Nat) (hm : m < 2 ^ 32) : bits32 (m : Int) = m := by
  unfold bits32
  omega

/-- AND of an `int32_t` with a non-negative mask `2 ^ k * (2 ^ w - 1)` below `2 ^ 31`. -/
theorem and32_shifted_mask (o : Int) (k w : Nat) (hm : 2 ^ k * (2 ^ w - 1) < 2 ^ 31) :
    and32 o ((2 ^ k * (2 ^ w - 1) : Nat) : Int)
      = ((2 ^ k * (bits32 o / 2 ^ k % 2 ^ w) : Nat) : Int) := by
  unfold and32
  rw [bits32_natCast _ (by omega)]
  have hle : bits32 o &&& (2 ^ k * (2 ^ w - 1)) ≤ 2 ^ k * (2 ^ w - 1) := Nat.and_le_right
  rw [toInt32_of_lt _ (by omega), land_shifted_mask]

theorem wrap32_of_range (x : Int) (h1 : -2 ^ 31 ≤ x) (h2 : x < 2 ^ 31) : wrap32 x = x := by
  unfold wrap32 toInt32 bits32
  split <;> omega

theorem ite_eq_then_iff {α : Type} {c : Prop} [Decidable c] {a b : α} (h : a ≠ b) :
    (if c then a else b) = a ↔ c := by
  by_cases hc : c
  · rw [if_pos hc]
    exact ⟨fun _ => hc, fun _ => rfl⟩
  · rw [if_neg hc]
    exact ⟨fun e => absurd e.symm h, fun e => absurd e hc⟩

theorem ite_eq_else_iff {α : Type} {c : Prop} [Decidable c] {a b : α} (h : a ≠ b) :
    (if c then a else b) = b ↔ ¬ c := by
  by_cases hc : c
  · rw [if_pos hc]
    exact ⟨fun e => absurd e h, fun e => absurd hc e⟩
  · rw [if_neg hc]
    exact ⟨fun _ => hc, fun _ => rfl⟩

theorem unassignedCE_bits (f : Int → Nat) (c : Int) (hf : f c < 2 ^ 32) :
    bits64 (unassignedCEFromCodePoint f c) = f c * 2 ^ 32 + 0x05000500 := by
  have hA : shl64 (f c) 32 = f c * 2 ^ 32 := by
    unfold shl64
    rw [Nat.shiftLeft_eq]
    omega
  have hAB : f c * 2 ^ 32 ||| COMMON_SEC_AND_TER_CE = f c * 2 ^ 32 + 0x05000500 :=
    lor_eq_add 32 _ _ (by omega) (by unfold COMMON_SEC_AND_TER_CE; omega)
  unfold unassignedCEFromCodePoint
  dsimp only
  rw [hA, hAB]
  apply bits64_toInt64
  omega

/-! ## Arithmetic reading of the option getters -/

theorem bits32_of_nonneg (o : Int) (h0 : 0 ≤ o) (h1 : o < 2 ^ 32) : bits32 o = o.toNat := by
  unfold bits32
  omega

theorem bits32_toInt32 (n : Nat) (h : n < 2 ^ 32) : bits32 (toInt32 n) = n := by
  unfold bits32 toInt32
  split <;> omega

theorem settings_caseBits (x : Int) :
    and32 x CollationSettings.CASE_FIRST_AND_UPPER_MASK
      = ((256 * (bits32 x / 256 % 4) : Nat) : Int) :=
  and32_shifted_mask x 8 2 (by norm_num)

theorem settings_upperFirst (x : Int) :
    and32 x CollationSettings.UPPER_FIRST = ((256 * (bits32 x / 256 % 2) : Nat) : Int) :=
  and32_shifted_mask x 8 1 (by norm_num)

theorem settings_caseFirst (x : Int) :
    and32 x CollationSettings.CASE_FIRST = ((512 * (bits32 x / 512 % 2) : Nat) : Int) :=
  and32_shifted_mask x 9 1 (by norm_num)

theorem settings_caseLevel (x : Int) :
    and32 x CollationSettings.CASE_LEVEL = ((1024 * (bits32 x / 1024 % 2) : Nat) : Int) :=
  and32_shifted_mask x 10 1 (by norm_num)

theorem settings_getCaseFirst_eq (x : Int) :
    CollationSettings.getCaseFirst x =
      if bits32 x / 256 % 4 = 0 then UColAttributeValue.UCOL_OFF
      else if bits32 x / 256 % 4 = 2 then UColAttributeValue.UCOL_LOWER_FIRST
      else UColAttributeValue.UCOL_UPPER_FIRST := by
  have hm : CollationSettings.CASE_FIRST = 0x200 := rfl
  unfold CollationSettings.getCaseFirst
  dsimp only
  rw [settings_caseBits, hm]
  by_cases h0 : bits32 x / 256 % 4 = 0
  · rw [if_pos h0, if_pos (by omega)]
  · by_cases h2 : bits32 x / 256 % 4 = 2
    · rw [if_neg h0, if_pos h2, if_neg (by omega), if_pos (by omega)]
    · rw [if_neg h0, if_neg h2, if_neg (by omega), if_neg (by omega)]

theorem settings_getTertiaryMask_eq (x : Int) :
    CollationSettings.getTertiaryMask x =
      if bits32 x / 512 % 4 = 1 then CASE_AND_TERTIARY_MASK else ONLY_TERTIARY_MASK := by
  have hb : and32 x (or32 CollationSettings.CASE_LEVEL CollationSettings.CASE_FIRST)
      = ((512 * (bits32 x / 512 % 4) : Nat) : Int) :=
    and32_shifted_mask x 9 2 (by norm_num)
  have hm : CollationSettings.CASE_FIRST = 0x200 := rfl
  unfold CollationSettings.getTertiaryMask
  rw [hb, hm]
  by_cases h : bits32 x / 512 % 4 = 1
  · rw [if_pos h, if_pos (by omega)]
  · rw [if_neg h, if_neg (by omega)]

theorem data_getTertiaryMask_eq (x : Int) :
    CollationData.getTertiaryMask x =
      if bits32 x / 32 % 4 = 1 then CASE_AND_TERTIARY_MASK else ONLY_TERTIARY_MASK := by
  have hb : and32 x (or32 CollationData.CASE_LEVEL CollationData.CASE_FIRST)
      = ((32 * (bits32 x / 32 % 4) : Nat) : Int) :=
    and32_shifted_mask x 5 2 (by norm_num)
  have hm : CollationData.CASE_FIRST = 0x20 := rfl
  unfold CollationData.getTertiaryMask
  rw [hb, hm]
  by_cases h : bits32 x / 32 % 4 = 1
  · rw [if_pos h, if_pos (by omega)]
  · rw [if_neg h, if_neg (by omega)]

theorem settings_sorts_eq (x : Int) :
    CollationSettings.sortsTertiaryUpperCaseFirst x = decide (bits32 x / 256 % 8 = 3) := by
  have hb : and32 x
      (or32 CollationSettings.CASE_LEVEL CollationSettings.CASE_FIRST_AND_UPPER_MASK)
        = ((256 * (bits32 x / 256 % 8) : Nat) : Int) :=
    and32_shifted_mask x 8 3 (by norm_num)
  have hm : CollationSettings.CASE_FIRST_AND_UPPER_MASK = 0x300 := by decide
  unfold CollationSettings.sortsTertiaryUpperCaseFirst
  rw [hb, hm]
  by_cases h : bits32 x / 256 % 8 = 3
  · rw [decide_eq_true h, decide_eq_true (by omega)]
  · rw [decide_eq_false h, decide_eq_false (by omega)]

theorem data_sorts_eq (x : Int) :
    CollationData.sortsTertiaryUpperCaseFirst x = decide (bits32 x / 16 % 8 = 3) := by
  have hb : and32 x (or32 CollationData.CASE_LEVEL CollationData.CASE_FIRST_AND_UPPER_MASK)
      = ((16 * (bits32 x / 16 % 8) : Nat) : Int) :=
    and32_shifted_mask x 4 3 (by norm_num)
  have hm : CollationData.CASE_FIRST_AND_UPPER_MASK = 0x30 := by decide
  unfold CollationData.sortsTertiaryUpperCaseFirst
  rw [hb, hm]
  by_cases h : bits32 x / 16 % 8 = 3
  · rw [decide_eq_true h, decide_eq_true (by omega)]
  · rw [decide_eq_false h, decide_eq_false (by omega)]

theorem bits32_lt (x : Int) : bits32 x < 2 ^ 32 := by
  unfold bits32
  omega

theorem flipBit_testBit (o : Int) (k j : Nat) (hk : k < 32) (hj : k ≠ j) :
    (bits32 (flipBit o k)).testBit j = (bits32 o).testBit j := by
  have hp : 2 ^ k < 2 ^ 32 := Nat.pow_lt_pow_right (by norm_num) hk
  unfold flipBit
  rw [bits32_toInt32 _ (Nat.xor_lt_two_pow (bits32_lt o) hp), Nat.testBit_xor,
    Nat.testBit_two_pow_of_ne hj, Bool.xor_false]

theorem settings_dontCheckFCD_eq (x : Int) :
    CollationSettings.dontCheckFCD x = !(bits32 x).testBit 0 := by
  have hb : and32 x CollationSettings.CHECK_FCD = ((1 * (bits32 x / 1 % 2) : Nat) : Int) :=
    and32_shifted_mask x 0 1 (by norm_num)
  unfold CollationSettings.dontCheckFCD
  rw [hb, Nat.testBit_to_div_mod]
  by_cases h : bits32 x / 2 ^ 0 % 2 = 1
  · rw [decide_eq_true h, decide_eq_false (by omega)]
    rfl
  · rw [decide_eq_false h, decide_eq_true (by omega)]
    rfl

theorem settings_hasBackwardSecondary_eq (x : Int) :
    CollationSettings.hasBackwardSecondary x = (bits32 x).testBit 11 := by
  have hb : and32 x CollationSettings.BACKWARD_SECONDARY
      = ((2048 * (bits32 x / 2048 % 2) : Nat) : Int) :=
    and32_shifted_mask x 11 1 (by norm_num)
  unfold CollationSettings.hasBackwardSecondary
  rw [hb, Nat.testBit_to_div_mod]
  by_cases h : bits32 x / 2 ^ 11 % 2 = 1
  · rw [decide_eq_true h, decide_eq_true (by omega)]
  · rw [decide_eq_false h, decide_eq_false (by omega)]

theorem settings_isNumeric_eq (x : Int) :
    CollationSettings.isNumeric x = (bits32 x).testBit 1 := by
  have hb : and32 x CollationSettings.NUMERIC = ((2 * (bits32 x / 2 % 2) : Nat) : Int) :=
    and32_shifted_mask x 1 1 (by norm_num)
  unfold CollationSettings.isNumeric
  rw [hb, Nat.testBit_to_div_mod]
  by_cases h : bits32 x / 2 ^ 1 % 2 = 1
  · rw [decide_eq_true h, decide_eq_true (by omega)]
  · rw [decide_eq_false h, decide_eq_false (by omega)]

/-- Replacing the strength field of a `CollationSettings` options word. -/
theorem settings_withStrength (o s : Int) (h0 : 0 ≤ o) (h1 : o < 0x10000) (hs0 : 0 ≤ s)
    (hs1 : s ≤ 15) :
    or32 (and32 o (not32 CollationSettings.STRENGTH_MASK)) (shl32i s CollationSettings.STRENGTH_SHIFT)
      = s * 4096 + o % 4096 := by
  lift o to ℕ using h0
  lift s to ℕ using hs0
  have hbo : bits32 (o : Int) = o := bits32_natCast o (by omega)
  have hbs : bits32 (s : Int) = s := bits32_natCast s (by omega)
  have hnot : bits32 (not32 CollationSettings.STRENGTH_MASK) = 0xFFFF0FFF := by decide
  have hsplit : (0xFFFF0FFF : Nat) = 0xFFFF0000 ||| 0xFFF := by decide
  have hsh : CollationSettings.STRENGTH_SHIFT.toNat = 12 := rfl
  have hhi : 65536 * (o / 65536 % 65536) = 0 := by omega
  have hA : and32 (o : Int) (not32 CollationSettings.STRENGTH_MASK) = ((o % 4096 : Nat) : Int) := by
    unfold and32
    rw [hbo, hnot, hsplit, Nat.and_or_distrib_left, land_ffff0000, hhi, Nat.zero_or,
      Nat.and_pow_two_sub_one_eq_mod o 12]
    exact toInt32_of_lt _ (by omega)
  have hB : shl32i (s : Int) CollationSettings.STRENGTH_SHIFT = ((s * 4096 : Nat) : Int) := by
    unfold shl32i shl32
    rw [hbs, hsh, Nat.shiftLeft_eq]
    have e : s * 2 ^ 12 % 2 ^ 32 = s * 4096 := by omega
    rw [e]
    exact toInt32_of_lt _ (by omega)
  unfold or32
  rw [hA, hB, bits32_natCast _ (by omega), bits32_natCast _ (by omega), Nat.lor_comm,
    lor_eq_add 12 (s * 4096) (o % 4096) (by omega) (by omega), toInt32_of_lt _ (by omega)]
  omega

/-- Replacing the strength field of a `CollationData` options word. -/
theorem data_withStrength (o s : Int) (h0 : 0 ≤ o) (h1 : o < 0x1000) (hs0 : 0 ≤ s)
    (hs1 : s ≤ 15) :
    or32 (and32 o (not32 CollationData.STRENGTH_MASK)) (shl32i s CollationData.STRENGTH_SHIFT)
      = s * 256 + o % 256 := by
  lift o to ℕ using h0
  lift s to ℕ using hs0
  have hbo : bits32 (o : Int) = o := bits32_natCast o (by omega)
  have hbs : bits32 (s : Int) = s := bits32_natCast s (by omega)
  have hnot : bits32 (not32 CollationData.STRENGTH_MASK) = 0xFFFFF0FF := by decide
  have hsplit : (0xFFFFF0FF : Nat) = 0xFFFFF000 ||| 0xFF := by decide
  have hsh : CollationData.STRENGTH_SHIFT.toNat = 8 := rfl
  have hland : o &&& 0xFFFFF000 = 4096 * (o / 4096 % 1048576) := land_shifted_mask o 12 20
  have hhi : 4096 * (o / 4096 % 1048576) = 0 := by omega
  have hA : and32 (o : Int) (not32 CollationData.STRENGTH_MASK) = ((o % 256 : Nat) : Int) := by
    unfold and32
    rw [hbo, hnot, hsplit, Nat.and_or_distrib_left, hland, hhi, Nat.zero_or,
      Nat.and_pow_two_sub_one_eq_mod o 8]
    exact toInt32_of_lt _ (by omega)
  have hB : shl32i (s : Int) CollationData.STRENGTH_SHIFT = ((s * 256 : Nat) : Int) := by
    unfold shl32i shl32
    rw [hbs, hsh, Nat.shiftLeft_eq]
    have e : s * 2 ^ 8 % 2 ^ 32 = s * 256 := by omega
    rw [e]
    exact toInt32_of_lt _ (by omega)
  unfold or32
  rw [hA, hB, bits32_natCast _ (by omega), bits32_natCast _ (by omega), Nat.lor_comm,
    lor_eq_add 8 (s * 256) (o % 256) (by omega) (by omega), toInt32_of_lt _ (by omega)]
  omega

/-- The Settings options word built from a Data options word `d` and a maxVariable value
`m`, as a sum of its three parts. -/
theorem settings_word_eq (d m : Nat) (hd : d < 0x1000) (hm : m ≤ 15) :
    or32 (or32 (and32 (d : Int) 0xF) (shl32i (m : Int) 4)) (shl32i (and32 (d : Int) 0xFF0) 4)
      = ((256 * (d / 16) + 16 * m + d % 16 : Nat) : Int) := by
  have hA : and32 (d : Int) 0xF = ((1 * (bits32 (d : Int) / 1 % 16) : Nat) : Int) :=
    and32_shifted_mask (d : Int) 0 4 (by norm_num)
  have hC : and32 (d : Int) 0xFF0 = ((16 * (bits32 (d : Int) / 16 % 256) : Nat) : Int) :=
    and32_shifted_mask (d : Int) 4 8 (by norm_num)
  have hbd : bits32 (d : Int) = d := bits32_natCast d (by omega)
  have hsh : (4 : Int).toNat = 4 := rfl
  have hB : shl32i (m : Int) 4 = ((16 * m : Nat) : Int) := by
    unfold shl32i shl32
    rw [bits32_natCast m (by omega), hsh, Nat.shiftLeft_eq]
    have e : m * 2 ^ 4 % 2 ^ 32 = 16 * m := by omega
    rw [e]
    exact toInt32_of_lt _ (by omega)
  have hD : shl32i ((16 * (d / 16 % 256) : Nat) : Int) 4 = ((256 * (d / 16) : Nat) : Int) := by
    unfold shl32i shl32
    rw [bits32_natCast _ (by omega), hsh, Nat.shiftLeft_eq]
    have e : 16 * (d / 16 % 256) * 2 ^ 4 % 2 ^ 32 = 256 * (d / 16) := by omega
    rw [e]
    exact toInt32_of_lt _ (by omega)
  have hA2 : ((1 * (d / 1 % 16) : Nat) : Int) = ((d % 16 : Nat) : Int) := by
    rw [Nat.one_mul, Nat.div_one]
  rw [hA, hC, hbd, hB, hD, hA2]
  unfold or32
  rw [bits32_natCast (d % 16) (by omega), bits32_natCast (16 * m) (by omega),
    Nat.lor_comm (d % 16) (16 * m), lor_eq_add 4 (16 * m) (d % 16) (by omega) (by omega),
    bits32_toInt32 _ (by omega), bits32_natCast (256 * (d / 16)) (by omega),
    Nat.lor_comm (16 * m + d % 16) (256 * (d / 16)),
    lor_eq_add 8 (256 * (d / 16)) (16 * m + d % 16) (by omega) (by omega),
    toInt32_of_lt _ (by omega)]
  omega

theorem settings_getCaseFirst_upper_iff (x : Int) :
    CollationSettings.getCaseFirst x = UColAttributeValue.UCOL_UPPER_FIRST ↔
      bits32 x / 256 % 2 = 1 := by
  rw [settings_getCaseFirst_eq]
  by_cases h0 : bits32 x / 256 % 4 = 0
  · rw [if_pos h0]
    constructor
    · intro h
      cases h
    · intro h
      omega
  · rw [if_neg h0]
    by_cases h2 : bits32 x / 256 % 4 = 2
    · rw [if_pos h2]
      constructor
      · intro h
        cases h
      · intro h
        omega
    · rw [if_neg h2]
      constructor
      · intro _
        omega
      · intro _
        rfl

/-- The value returned by `ceFromCE32` is the signed reading of its 64-bit pattern. -/
theorem ceFromCE32_toInt64 (n : Nat) (hn : n < 2 ^ 32) :
    ceFromCE32 n = toInt64 (bits64 (ceFromCE32 n)) := by
  have h64 : ∀ x k : Nat, shl64 x k < 2 ^ 64 := fun x k => Nat.mod_lt _ (by norm_num)
  have h32 : ∀ x k : Nat, shl32 x k < 2 ^ 64 :=
    fun x k => Nat.lt_trans (Nat.mod_lt _ (by norm_num)) (by norm_num)
  have hc : COMMON_SEC_AND_TER_CE < 2 ^ 64 := by decide
  unfold ceFromCE32
  dsimp only
  split_ifs
  · rw [bits64_toInt64 _ (Nat.or_lt_two_pow (Nat.or_lt_two_pow (h64 _ _) (h32 _ _)) (h32 _ _))]
  · rw [bits64_toInt64 _ (Nat.or_lt_two_pow (h64 _ _) hc)]
  · rw [bits64_toInt64 _ (by omega)]

theorem toInt64_neg_iff (n : Nat) (h : n < 2 ^ 64) : toInt64 n < 0 ↔ 2 ^ 63 ≤ n := by
  unfold toInt64
  split <;> omega

/-- The primary field produced by `ceFromCE32` has a zero low byte. -/
theorem ceFromCE32_primary_lowByte (n : Nat) (hn : n < 2 ^ 32) :
    primaryField (ceFromCE32 n) % 256 = 0 := by
  unfold primaryField
  rw [Nat.shiftRight_eq_div_pow]
  by_cases h1 : n % 256 > 1
  · obtain ⟨e1, -, -, -, -⟩ :=
      normal_pattern_fields (n / 65536 % 65536) (n / 256 % 256) (n % 256) (by omega) (by omega)
    rw [ceFromCE32_normal_bits n h1, e1]
    omega
  · by_cases h2 : n % 256 = 1
    · rw [ceFromCE32_longPrimary_bits n hn h2]
      omega
    · rw [ceFromCE32_longSecondary_bits n hn (by omega)]
      omega

/-! ## Claims -/

/-- C1: for every 32-bit value `v`, `isSpecialCE32 v` holds iff `v ≥ MIN_SPECIAL_CE32`
(`0xFF000000`), which holds iff the lead byte `v >> 24` is `SPECIAL_BYTE` (`0xFF`). -/
theorem C1_isSpecialCE32_iff (v : Nat) (hv : v < 2 ^ 32) :
    (isSpecialCE32 v = true ↔ v ≥ MIN_SPECIAL_CE32) ∧
    (v ≥ MIN_SPECIAL_CE32 ↔ v >>> 24 = SPECIAL_BYTE) ∧
    MIN_SPECIAL_CE32 = 0xFF000000 ∧ SPECIAL_BYTE = 0xFF := by
  refine ⟨?_, ?_, rfl, rfl⟩
  · unfold isSpecialCE32
    exact decide_eq_true_iff
  · rw [Nat.shiftRight_eq_div_pow]
    unfold MIN_SPECIAL_CE32 SPECIAL_BYTE
    omega

theorem C1_isSpecialCE32_iff_witness :
    (0xFF00ABCD : Nat) < 2 ^ 32 ∧
    ((isSpecialCE32 0xFF00ABCD = true ↔ 0xFF00ABCD ≥ MIN_SPECIAL_CE32) ∧
     (0xFF00ABCD ≥ MIN_SPECIAL_CE32 ↔ 0xFF00ABCD >>> 24 = SPECIAL_BYTE) ∧
     MIN_SPECIAL_CE32 = 0xFF000000 ∧ SPECIAL_BYTE = 0xFF) :=
  ⟨by norm_num, C1_isSpecialCE32_iff 0xFF00ABCD (by norm_num)⟩

/-- C2: for every 32-bit value `v`, `getSpecialCE32Tag v` lies in 0..15 and is the number
formed by bits 23..20 of `v`; for every tag `t` in 0..15 and data `d < 2^20` the word
`0xFF000000 | (t << 20) | d` is special, has tag `t` and low 20 bits `d`. -/
theorem C2_getSpecialCE32Tag (v : Nat) :
    (v < 2 ^ 32 →
      0 ≤ getSpecialCE32Tag v ∧ getSpecialCE32Tag v ≤ 15 ∧
      getSpecialCE32Tag v =
        (((v.testBit 20).toNat + 2 * (v.testBit 21).toNat + 4 * (v.testBit 22).toNat
          + 8 * (v.testBit 23).toNat : Nat) : Int)) ∧
    (∀ t d : Nat, t < 16 → d < 2 ^ 20 →
      0xFF000000 ||| (t <<< 20) ||| d < 2 ^ 32 ∧
      isSpecialCE32 (0xFF000000 ||| (t <<< 20) ||| d) = true ∧
      getSpecialCE32Tag (0xFF000000 ||| (t <<< 20) ||| d) = (t : Int) ∧
      (0xFF000000 ||| (t <<< 20) ||| d) &&& 0xFFFFF = d) := by
  constructor
  · intro _
    rw [getSpecialCE32Tag_eq]
    simp only [Nat.toNat_testBit]
    refine ⟨by omega, by omega, ?_⟩
    congr 1
    omega
  · intro t d ht hd
    rw [special_word_eq t d ht hd, getSpecialCE32Tag_eq, land_fffff]
    refine ⟨by omega, ?_, ?_, by omega⟩
    · unfold isSpecialCE32 MIN_SPECIAL_CE32
      simp only [decide_eq_true_eq]
      omega
    · congr 1
      omega

theorem C2_getSpecialCE32Tag_witness :
    ((0xFFA12345 : Nat) < 2 ^ 32 ∧ (10 : Nat) < 16 ∧ (0x12345 : Nat) < 2 ^ 20) ∧
    getSpecialCE32Tag 0xFFA12345 = 10 ∧
    getSpecialCE32Tag (0xFF000000 ||| (10 <<< 20) ||| 0x12345) = ((10 : Nat) : Int) :=
  ⟨⟨by norm_num, by norm_num, by norm_num⟩,
   ((C2_getSpecialCE32Tag 0xFFA12345).1 (by norm_num)).2.2.trans (by decide),
   ((C2_getSpecialCE32Tag 0xFFA12345).2 10 0x12345 (by norm_num) (by norm_num)).2.2.1⟩

/-- C3 (normal form): for a 32-bit `ce32` whose low byte is greater than 1, `ceFromCE32 ce32`
is the pattern with primary field `ce32 & 0xFFFF0000`, secondary field
`((ce32 >> 8) & 0xFF) << 8`, tertiary field `(ce32 & 0xFF) << 8` and all other bits zero
(`ppppsstt -> pppp0000ss00tt00`). -/
theorem C3_ceFromCE32_normal (ce32 : Nat) (hce : ce32 < 2 ^ 32) (ht : ce32 &&& 0xff > 1) :
    primaryField (ceFromCE32 ce32) = ce32 &&& 0xFFFF0000 ∧
    secondaryField (ceFromCE32 ce32) = ((ce32 >>> 8) &&& 0xFF) <<< 8 ∧
    tertiaryField (ceFromCE32 ce32) = (ce32 &&& 0xFF) <<< 8 ∧
    bits64 (ceFromCE32 ce32)
      = (ce32 >>> 16) * 2 ^ 48 + ((ce32 >>> 8) &&& 0xFF) * 2 ^ 24 + (ce32 &&& 0xFF) * 2 ^ 8 := by
  rw [land_ff] at ht
  have hb := ceFromCE32_normal_bits ce32 ht
  unfold primaryField secondaryField tertiaryField
  rw [hb, land_ffff0000, land_ffff, land_ffff, land_ff, land_ff]
  simp only [Nat.shiftRight_eq_div_pow, Nat.shiftLeft_eq]
  refine ⟨by omega, by omega, by omega, by omega⟩

theorem C3_ceFromCE32_normal_witness :
    ((0x12345678 : Nat) < 2 ^ 32 ∧ (0x12345678 : Nat) &&& 0xff > 1) ∧
    primaryField (ceFromCE32 0x12345678) = 0x12340000 ∧
    secondaryField (ceFromCE32 0x12345678) = 0x5600 ∧
    tertiaryField (ceFromCE32 0x12345678) = 0x7800 ∧
    bits64 (ceFromCE32 0x12345678) = 0x1234000056007800 :=
  have h := C3_ceFromCE32_normal 0x12345678 (by norm_num) (by decide)
  ⟨⟨by norm_num, by decide⟩, h.1.trans (by decide), h.2.1.trans (by decide),
    h.2.2.1.trans (by decide), h.2.2.2.trans (by decide)⟩

/-- C4 (long-primary form): for a 32-bit `ce32` whose low byte is 1, `ceFromCE32 ce32` has
primary field `ce32 - 1` and low 32 bits `COMMON_SEC_AND_TER_CE` (`0x05000500`): secondary and
tertiary field are both the common weight `0x0500`. -/
theorem C4_ceFromCE32_longPrimary (ce32 : Nat) (hce : ce32 < 2 ^ 32) (ht : ce32 &&& 0xff = 1) :
    primaryField (ceFromCE32 ce32) = ce32 - 1 ∧
    lower32 (ceFromCE32 ce32) = COMMON_SEC_AND_TER_CE ∧
    COMMON_SEC_AND_TER_CE = 0x05000500 ∧
    secondaryField (ceFromCE32 ce32) = COMMON_WEIGHT16 ∧
    tertiaryField (ceFromCE32 ce32) = COMMON_WEIGHT16 ∧
    COMMON_WEIGHT16 = 0x0500 := by
  rw [land_ff] at ht
  have hb := ceFromCE32_longPrimary_bits ce32 hce ht
  unfold primaryField secondaryField tertiaryField lower32 COMMON_SEC_AND_TER_CE COMMON_WEIGHT16
  rw [hb, land_ffffffff, land_ffff, land_ffff]
  simp only [Nat.shiftRight_eq_div_pow]
  refine ⟨by omega, by omega, trivial, by omega, by omega, trivial⟩

theorem C4_ceFromCE32_longPrimary_witness :
    ((0x12345601 : Nat) < 2 ^ 32 ∧ (0x12345601 : Nat) &&& 0xff = 1) ∧
    primaryField (ceFromCE32 0x12345601) = 0x12345600 ∧
    lower32 (ceFromCE32 0x12345601) = 0x05000500 :=
  have h := C4_ceFromCE32_longPrimary 0x12345601 (by norm_num) (by decide)
  ⟨⟨by norm_num, by decide⟩, h.1.trans (by decide), h.2.1.trans h.2.2.1⟩

/-- C5 (long-secondary form): for a 32-bit `ce32` whose low byte is 0, `ceFromCE32 ce32` is
`ce32` zero-extended to 64 bits (`sssstt00 -> 00000000sssstt00`): the primary field is 0, the
result is non-negative, and `ceFromCE32 0` is the all-zero CE. -/
theorem C5_ceFromCE32_longSecondary (ce32 : Nat) (hce : ce32 < 2 ^ 32) (ht : ce32 &&& 0xff = 0) :
    ceFromCE32 ce32 = (ce32 : Int) ∧
    bits64 (ceFromCE32 ce32) = ce32 ∧
    primaryField (ceFromCE32 ce32) = 0 ∧
    0 ≤ ceFromCE32 ce32 ∧
    ceFromCE32 0 = 0 := by
  rw [land_ff] at ht
  have hb := ceFromCE32_longSecondary_bits ce32 hce ht
  have hv : ceFromCE32 ce32 = (ce32 : Int) := by
    rw [ceFromCE32_longSecondary ce32 ht]
    unfold toInt64
    rw [if_pos (by omega)]
  refine ⟨hv, hb, ?_, ?_, by decide⟩
  · unfold primaryField
    rw [hb, Nat.shiftRight_eq_div_pow]
    omega
  · rw [hv]
    exact Int.ofNat_nonneg ce32

theorem C5_ceFromCE32_longSecondary_witness :
    ((0xFEDC7800 : Nat) < 2 ^ 32 ∧ (0xFEDC7800 : Nat) &&& 0xff = 0) ∧
    ceFromCE32 0xFEDC7800 = 0xFEDC7800 ∧
    primaryField (ceFromCE32 0xFEDC7800) = 0 :=
  have h := C5_ceFromCE32_longSecondary 0xFEDC7800 (by norm_num) (by decide)
  ⟨⟨by norm_num, by decide⟩, h.1, h.2.2.1⟩

/-- C6 as stated fails: two long-secondary CE32s with equal low 16 bits whose CEs have
different secondary fields. -/
theorem C6_counterexample :
    ((0x00010000 : Nat) < 2 ^ 32 ∧ (0x00020000 : Nat) < 2 ^ 32 ∧
      (0x00010000 : Nat) &&& 0xff = 0 ∧ (0x00020000 : Nat) &&& 0xff = 0 ∧
      (0x00010000 : Nat) &&& 0xffff = 0x00020000 &&& 0xffff) ∧
    ¬ (secondaryField (ceFromCE32 0x00010000) = secondaryField (ceFromCE32 0x00020000) ∧
       tertiaryField (ceFromCE32 0x00010000) = tertiaryField (ceFromCE32 0x00020000)) := by
  decide

/-- C6 (amended): in the long-secondary form `sssstt00` all 32 bits of the CE32 hold
secondary+tertiary: the secondary field of the CE is the high 16 bits of the CE32 and the
tertiary field is its low 16 bits. For two 32-bit values with low byte 0 and equal low 16
bits the CEs have the same tertiary field, and the same secondary field iff the high 16 bits
are equal. -/
theorem C6_longSecondary_fields (a b : Nat) (ha : a < 2 ^ 32) (hb : b < 2 ^ 32)
    (hta : a &&& 0xff = 0) (htb : b &&& 0xff = 0) (h16 : a &&& 0xffff = b &&& 0xffff) :
    secondaryField (ceFromCE32 a) = a >>> 16 ∧
    tertiaryField (ceFromCE32 a) = a &&& 0xffff ∧
    tertiaryField (ceFromCE32 a) = tertiaryField (ceFromCE32 b) ∧
    (secondaryField (ceFromCE32 a) = secondaryField (ceFromCE32 b) ↔ a >>> 16 = b >>> 16) := by
  rw [land_ff] at hta htb
  have hba := ceFromCE32_longSecondary_bits a ha hta
  have hbb := ceFromCE32_longSecondary_bits b hb htb
  unfold secondaryField tertiaryField
  rw [hba, hbb, h16]
  simp only [land_ffff, Nat.shiftRight_eq_div_pow]
  refine ⟨by omega, trivial, trivial, ?_⟩
  constructor <;> intro h <;> omega

theorem C6_longSecondary_fields_witness :
    ((0x00010000 : Nat) < 2 ^ 32 ∧ (0x00020000 : Nat) < 2 ^ 32 ∧
      (0x00010000 : Nat) &&& 0xff = 0 ∧ (0x00020000 : Nat) &&& 0xff = 0 ∧
      (0x00010000 : Nat) &&& 0xffff = 0x00020000 &&& 0xffff) ∧
    secondaryField (ceFromCE32 0x00010000) = 1 ∧
    tertiaryField (ceFromCE32 0x00010000) = tertiaryField (ceFromCE32 0x00020000) :=
  have h := C6_longSecondary_fields 0x00010000 0x00020000 (by norm_num) (by norm_num)
    (by decide) (by decide) (by decide)
  ⟨⟨by norm_num, by norm_num, by decide, by decide, by decide⟩, h.1.trans (by decide), h.2.2.1⟩

/-- C7 (round trip): for every non-special CE32 `v` with `ce` the unsigned 64-bit pattern of
`ceFromCE32 v`, re-encoding by the form of `v` gives `v` back: in normal form
`((ce >> 32) & 0xFFFF0000) | ((ce >> 16) & 0xFF00) | ((ce >> 8) & 0xFF) = v`, in long-primary
form `(ce >> 32) + 1 = v`, in long-secondary form the low 32 bits of `ce` are `v`. -/
theorem C7_ceFromCE32_roundtrip (v : Nat) (hv : v < 0xFF000000) :
    (v &&& 0xff > 1 →
      ((bits64 (ceFromCE32 v) >>> 32) &&& 0xFFFF0000) |||
        ((bits64 (ceFromCE32 v) >>> 16) &&& 0xFF00) |||
        ((bits64 (ceFromCE32 v) >>> 8) &&& 0xFF) = v) ∧
    (v &&& 0xff = 1 → (bits64 (ceFromCE32 v) >>> 32) + 1 = v) ∧
    (v &&& 0xff = 0 → bits64 (ceFromCE32 v) &&& 0xFFFFFFFF = v) := by
  refine ⟨?_, ?_, ?_⟩
  · intro ht
    rw [land_ff] at ht
    have hparts := ce32_parts v (by omega)
    obtain ⟨e1, -, -, e4, e5⟩ :=
      normal_pattern_fields (v / 65536 % 65536) (v / 256 % 256) (v % 256) (by omega) (by omega)
    rw [ceFromCE32_normal_bits v ht, land_ffff0000, land_ff00, land_ff]
    simp only [Nat.shiftRight_eq_div_pow]
    rw [e1, e4, e5]
    generalize v / 65536 % 65536 = p at *
    generalize v / 256 % 256 = s at *
    generalize v % 256 = t at *
    have hp : p * 65536 / 65536 % 65536 = p := by omega
    rw [hp, lor_eq_add 16 (65536 * p) (256 * s) (by omega) (by omega),
      lor_eq_add 8 (65536 * p + 256 * s) t (by omega) (by omega)]
    omega
  · intro ht
    rw [land_ff] at ht
    rw [ceFromCE32_longPrimary_bits v (by omega) ht, Nat.shiftRight_eq_div_pow]
    omega
  · intro ht
    rw [land_ff] at ht
    rw [ceFromCE32_longSecondary_bits v (by omega) ht, land_ffffffff]
    omega

theorem C7_ceFromCE32_roundtrip_witness :
    (0x12345678 : Nat) < 0xFF000000 ∧ (0x12345678 : Nat) &&& 0xff > 1 ∧
    ((bits64 (ceFromCE32 0x12345678) >>> 32) &&& 0xFFFF0000) |||
      ((bits64 (ceFromCE32 0x12345678) >>> 16) &&& 0xFF00) |||
      ((bits64 (ceFromCE32 0x12345678) >>> 8) &&& 0xFF) = 0x12345678 :=
  ⟨by norm_num, by decide, (C7_ceFromCE32_roundtrip 0x12345678 (by norm_num)).1 (by decide)⟩

/-- C8: the normal-form decode preserves order: for non-special CE32s `a < b` that both have
a low byte greater than 1, `ceFromCE32 a < ceFromCE32 b` as unsigned 64-bit patterns, and also
lexicographically by primary, then secondary, then tertiary field. -/
theorem C8_ceFromCE32_normal_monotone (a b : Nat) (ha : a < 0xFF000000) (hb : b < 0xFF000000)
    (hta : a &&& 0xff > 1) (htb : b &&& 0xff > 1) (hab : a < b) :
    bits64 (ceFromCE32 a) < bits64 (ceFromCE32 b) ∧
    (primaryField (ceFromCE32 a) < primaryField (ceFromCE32 b) ∨
      (primaryField (ceFromCE32 a) = primaryField (ceFromCE32 b) ∧
        (secondaryField (ceFromCE32 a) < secondaryField (ceFromCE32 b) ∨
          (secondaryField (ceFromCE32 a) = secondaryField (ceFromCE32 b) ∧
            tertiaryField (ceFromCE32 a) < tertiaryField (ceFromCE32 b))))) := by
  rw [land_ff] at hta htb
  have hpa := ce32_parts a (by omega)
  have hpb := ce32_parts b (by omega)
  obtain ⟨a1, a2, a3, -, -⟩ :=
    normal_pattern_fields (a / 65536 % 65536) (a / 256 % 256) (a % 256) (by omega) (by omega)
  obtain ⟨b1, b2, b3, -, -⟩ :=
    normal_pattern_fields (b / 65536 % 65536) (b / 256 % 256) (b % 256) (by omega) (by omega)
  have hsa : a / 256 % 256 < 256 := by omega
  have hsb : b / 256 % 256 < 256 := by omega
  unfold primaryField secondaryField tertiaryField
  rw [ceFromCE32_normal_bits a hta, ceFromCE32_normal_bits b htb]
  simp only [land_ffff, Nat.shiftRight_eq_div_pow]
  rw [a1, a2, a3, b1, b2, b3]
  generalize a / 65536 % 65536 = pa at *
  generalize a / 256 % 256 = sa at *
  generalize a % 256 = ta at *
  generalize b / 65536 % 65536 = pb at *
  generalize b / 256 % 256 = sb at *
  generalize b % 256 = tb at *
  constructor <;> omega

theorem C8_ceFromCE32_normal_monotone_witness :
    ((0x7FFF0505 : Nat) < 0xFF000000 ∧ (0x80000505 : Nat) < 0xFF000000 ∧
      (0x7FFF0505 : Nat) &&& 0xff > 1 ∧ (0x80000505 : Nat) &&& 0xff > 1 ∧
      (0x7FFF0505 : Nat) < 0x80000505) ∧
    bits64 (ceFromCE32 0x7FFF0505) < bits64 (ceFromCE32 0x80000505) :=
  ⟨⟨by norm_num, by norm_num, by decide, by decide, by norm_num⟩,
    (C8_ceFromCE32_normal_monotone 0x7FFF0505 0x80000505 (by norm_num) (by norm_num)
      (by decide) (by decide) (by norm_num)).1⟩

/-- C9: for every 32-bit `ce32`, `isLongPrimaryCE32 ce32` holds iff `ce32 < 0xFF000000` and
its low byte is 1; for such `ce32`, `primaryFromLongPrimaryCE32 ce32 = ce32 - 1
= ce32 & 0xFFFFFF00` (a primary `pppppp00` with zero low byte), which is the primary field
of `ceFromCE32 ce32`. -/
theorem C9_longPrimaryCE32 (ce32 : Nat) (hce : ce32 < 2 ^ 32) :
    (isLongPrimaryCE32 ce32 = true ↔ ce32 < 0xFF000000 ∧ ce32 &&& 0xff = 1) ∧
    (isLongPrimaryCE32 ce32 = true →
      primaryFromLongPrimaryCE32 ce32 = ce32 - 1 ∧
      ce32 - 1 = ce32 &&& 0xFFFFFF00 ∧
      (ce32 - 1) &&& 0xff = 0 ∧
      primaryFromLongPrimaryCE32 ce32 = primaryField (ceFromCE32 ce32)) := by
  have hiff : isLongPrimaryCE32 ce32 = true ↔ ce32 < 0xFF000000 ∧ ce32 &&& 0xff = 1 := by
    unfold isLongPrimaryCE32 isSpecialCE32 MIN_SPECIAL_CE32
    simp only [Bool.and_eq_true, Bool.not_eq_true', decide_eq_false_iff_not, decide_eq_true_eq,
      ge_iff_le, Nat.not_le]
  refine ⟨hiff, ?_⟩
  intro h
  obtain ⟨-, ht⟩ := hiff.mp h
  rw [land_ff] at ht
  have hb := ceFromCE32_longPrimary_bits ce32 hce ht
  have hsub : primaryFromLongPrimaryCE32 ce32 = ce32 - 1 := by
    unfold primaryFromLongPrimaryCE32 sub32
    omega
  refine ⟨hsub, ?_, ?_, ?_⟩
  · rw [land_ffffff00]
    omega
  · rw [land_ff]
    omega
  · unfold primaryField
    rw [hsub, hb, Nat.shiftRight_eq_div_pow]
    omega

theorem C9_longPrimaryCE32_witness :
    (0x12345601 : Nat) < 2 ^ 32 ∧ isLongPrimaryCE32 0x12345601 = true ∧
    primaryFromLongPrimaryCE32 0x12345601 = 0x12345600 ∧
    primaryFromLongPrimaryCE32 0x12345601 = primaryField (ceFromCE32 0x12345601) :=
  have h := (C9_longPrimaryCE32 0x12345601 (by norm_num)).2 (by decide)
  ⟨by norm_num, by decide, h.1, h.2.2.2⟩

/-- C10: for every 256-entry byte table `t` and 32-bit primary `p`, the table index `p >> 24`
is within 0..255, `reorder t p` is defined, has lead byte `t[p >> 24]` and the same low 24
bits as `p`; a table that agrees with `t` at index `p >> 24` gives the same result. -/
theorem C10_reorder (t : Array (Fin 256)) (ht : t.size = 256) (p : Nat) (hp : p < 2 ^ 32) :
    p >>> 24 < 256 ∧
    (reorder t p).isSome = true ∧
    (reorder t p).map (fun r => r >>> 24) = (t[p >>> 24]?).map (fun b => b.val) ∧
    (reorder t p).map (fun r => r &&& 0xffffff) = some (p &&& 0xffffff) ∧
    (∀ r, reorder t p = some r → r < 2 ^ 32) ∧
    (∀ u : Array (Fin 256), u[p >>> 24]? = t[p >>> 24]? → reorder u p = reorder t p) := by
  have hidx : p >>> 24 < 256 := by
    rw [Nat.shiftRight_eq_div_pow]
    omega
  have hget : t[p >>> 24]? = some (t[p >>> 24]) := Array.getElem?_eq_getElem (by omega)
  have hb : (t[p >>> 24]).val < 256 := (t[p >>> 24]).isLt
  have hval : reorder t p = some ((t[p >>> 24]).val * 2 ^ 24 + p % 16777216) := by
    unfold reorder shl32
    rw [hget]
    simp only [Nat.shiftLeft_eq, land_ffffff]
    have e : (t[p >>> 24]).val * 2 ^ 24 % 2 ^ 32 = (t[p >>> 24]).val * 2 ^ 24 := by omega
    rw [e, lor_eq_add 24 _ _ (by omega) (by omega)]
  refine ⟨hidx, ?_, ?_, ?_, ?_, ?_⟩
  · rw [hval]
    rfl
  · rw [hval, hget]
    simp only [Option.map_some', Nat.shiftRight_eq_div_pow]
    congr 1
    omega
  · rw [hval]
    simp only [Option.map_some', land_ffffff]
    congr 1
    omega
  · intro r hr
    rw [hval] at hr
    injection hr with hr
    omega
  · intro u hu
    unfold reorder
    rw [hu]

theorem C10_reorder_witness :
    ((Array.mkArray 256 (7 : Fin 256)).size = 256 ∧ (0x12345678 : Nat) < 2 ^ 32) ∧
    (reorder (Array.mkArray 256 (7 : Fin 256)) 0x12345678).isSome = true ∧
    (reorder (Array.mkArray 256 (7 : Fin 256)) 0x12345678).map (fun r => r &&& 0xffffff)
      = some (0x12345678 &&& 0xffffff) :=
  have h := C10_reorder (Array.mkArray 256 (7 : Fin 256)) (Array.size_mkArray 256 7) 0x12345678
    (by norm_num)
  ⟨⟨Array.size_mkArray 256 7, by norm_num⟩, h.2.1, h.2.2.2.1⟩

/-- C11: for 256-entry byte tables `t` and `u` with `u[t[b]] = b` for every byte `b`, and every
32-bit primary `p`, `reorder u (reorder t p) = p`; in particular `reorder identity p = p`
where `identity[b] = b`. -/
theorem C11_reorder_inverse (t u : Array (Fin 256)) (ht : t.size = 256) (hu : u.size = 256)
    (hinv : ∀ b : Fin 256, (t[b.val]?).bind (fun x => u[x.val]?) = some b)
    (p : Nat) (hp : p < 2 ^ 32) :
    (reorder t p).bind (reorder u) = some p ∧
    reorder (Array.ofFn (fun b : Fin 256 => b)) p = some p := by
  have hidx : p >>> 24 < 256 := by
    rw [Nat.shiftRight_eq_div_pow]
    omega
  have hdiv : p >>> 24 = p / 16777216 := by
    rw [Nat.shiftRight_eq_div_pow]
  constructor
  · obtain ⟨b, hb, hr⟩ := reorder_eq t ht p hp
    have hq : b.val * 2 ^ 24 + p % 16777216 < 2 ^ 32 := by
      have := b.isLt
      omega
    obtain ⟨c, hc, hr2⟩ := reorder_eq u hu (b.val * 2 ^ 24 + p % 16777216) hq
    have hshift : (b.val * 2 ^ 24 + p % 16777216) >>> 24 = b.val := by
      rw [Nat.shiftRight_eq_div_pow]
      omega
    rw [hshift] at hc
    have hi := hinv ⟨p >>> 24, hidx⟩
    simp only [hb, Option.some_bind, hc] at hi
    have hcv : c.val = p >>> 24 := by
      have := Option.some.inj hi
      rw [this]
    rw [hr, Option.some_bind, hr2, hcv, hdiv]
    exact congrArg some (by omega)
  · obtain ⟨b, hb, hr⟩ := reorder_eq (Array.ofFn (fun b : Fin 256 => b)) (Array.size_ofFn _) p hp
    have hsz : p >>> 24 < (Array.ofFn (fun b : Fin 256 => b)).size := by
      rw [Array.size_ofFn]
      exact hidx
    rw [Array.getElem?_eq_getElem hsz, Array.getElem_ofFn] at hb
    have hbv : b.val = p >>> 24 := by
      have := Option.some.inj hb
      rw [← this]
    rw [hr, hbv, hdiv]
    exact congrArg some (by omega)

theorem C11_reorder_inverse_witness :
    ((Array.ofFn (fun b : Fin 256 => (⟨255 - b.val, by omega⟩ : Fin 256))).size = 256 ∧
      (0x12345678 : Nat) < 2 ^ 32) ∧
    (reorder (Array.ofFn (fun b : Fin 256 => (⟨255 - b.val, by omega⟩ : Fin 256)))
        0x12345678).bind
      (reorder (Array.ofFn (fun b : Fin 256 => (⟨255 - b.val, by omega⟩ : Fin 256))))
      = some 0x12345678 :=
  ⟨⟨Array.size_ofFn _, by norm_num⟩,
    (C11_reorder_inverse
      (Array.ofFn (fun b : Fin 256 => (⟨255 - b.val, by omega⟩ : Fin 256)))
      (Array.ofFn (fun b : Fin 256 => (⟨255 - b.val, by omega⟩ : Fin 256)))
      (Array.size_ofFn _) (Array.size_ofFn _)
      (by
        intro b
        have h1 : b.val < (Array.ofFn (fun b : Fin 256 => (⟨255 - b.val, by omega⟩ : Fin 256))).size := by
          rw [Array.size_ofFn]
          exact b.isLt
        have h2 : 255 - b.val < (Array.ofFn (fun b : Fin 256 => (⟨255 - b.val, by omega⟩ : Fin 256))).size := by
          rw [Array.size_ofFn]
          omega
        rw [Array.getElem?_eq_getElem h1, Array.getElem_ofFn, Option.some_bind]
        simp only []
        rw [Array.getElem?_eq_getElem h2, Array.getElem_ofFn]
        congr 1
        apply Fin.ext
        simp only []
        omega)
      0x12345678 (by norm_num)).1⟩

/-- C12: for every options word `o`, `CollationData.getTertiaryMask o` is
`CASE_AND_TERTIARY_MASK` (`0xFF3F`) iff the `CASE_LEVEL` bit of `o` is clear and the
`CASE_FIRST` bit is set, and `ONLY_TERTIARY_MASK` (`0x3F3F`) otherwise, whatever the other bits
of `o` are; the same holds for `CollationSettings.getTertiaryMask` with its bit positions. -/
theorem C12_getTertiaryMask (o : Int) :
    ((CollationData.getTertiaryMask o = CASE_AND_TERTIARY_MASK ↔
        and32 o CollationData.CASE_LEVEL = 0 ∧ and32 o CollationData.CASE_FIRST ≠ 0) ∧
      (CollationData.getTertiaryMask o = ONLY_TERTIARY_MASK ↔
        ¬ (and32 o CollationData.CASE_LEVEL = 0 ∧ and32 o CollationData.CASE_FIRST ≠ 0)) ∧
      (∀ q : Int, and32 q CollationData.CASE_LEVEL = and32 o CollationData.CASE_LEVEL →
        and32 q CollationData.CASE_FIRST = and32 o CollationData.CASE_FIRST →
        CollationData.getTertiaryMask q = CollationData.getTertiaryMask o)) ∧
    ((CollationSettings.getTertiaryMask o = CASE_AND_TERTIARY_MASK ↔
        and32 o CollationSettings.CASE_LEVEL = 0 ∧ and32 o CollationSettings.CASE_FIRST ≠ 0) ∧
      (CollationSettings.getTertiaryMask o = ONLY_TERTIARY_MASK ↔
        ¬ (and32 o CollationSettings.CASE_LEVEL = 0 ∧ and32 o CollationSettings.CASE_FIRST ≠ 0)) ∧
      (∀ q : Int, and32 q CollationSettings.CASE_LEVEL = and32 o CollationSettings.CASE_LEVEL →
        and32 q CollationSettings.CASE_FIRST = and32 o CollationSettings.CASE_FIRST →
        CollationSettings.getTertiaryMask q = CollationSettings.getTertiaryMask o)) ∧
    CASE_AND_TERTIARY_MASK = 0xFF3F ∧ ONLY_TERTIARY_MASK = 0x3F3F := by
  have dBoth : ∀ x : Int, and32 x (or32 CollationData.CASE_LEVEL CollationData.CASE_FIRST)
      = ((32 * (bits32 x / 32 % 4) : Nat) : Int) :=
    fun x => and32_shifted_mask x 5 2 (by norm_num)
  have dLevel : ∀ x : Int, and32 x CollationData.CASE_LEVEL
      = ((64 * (bits32 x / 64 % 2) : Nat) : Int) :=
    fun x => and32_shifted_mask x 6 1 (by norm_num)
  have dFirst : ∀ x : Int, and32 x CollationData.CASE_FIRST
      = ((32 * (bits32 x / 32 % 2) : Nat) : Int) :=
    fun x => and32_shifted_mask x 5 1 (by norm_num)
  have sBoth : ∀ x : Int, and32 x (or32 CollationSettings.CASE_LEVEL CollationSettings.CASE_FIRST)
      = ((512 * (bits32 x / 512 % 4) : Nat) : Int) :=
    fun x => and32_shifted_mask x 9 2 (by norm_num)
  have sLevel : ∀ x : Int, and32 x CollationSettings.CASE_LEVEL
      = ((1024 * (bits32 x / 1024 % 2) : Nat) : Int) :=
    fun x => and32_shifted_mask x 10 1 (by norm_num)
  have sFirst : ∀ x : Int, and32 x CollationSettings.CASE_FIRST
      = ((512 * (bits32 x / 512 % 2) : Nat) : Int) :=
    fun x => and32_shifted_mask x 9 1 (by norm_num)
  have dKey : ∀ x : Int,
      and32 x (or32 CollationData.CASE_LEVEL CollationData.CASE_FIRST) = CollationData.CASE_FIRST ↔
        and32 x CollationData.CASE_LEVEL = 0 ∧ and32 x CollationData.CASE_FIRST ≠ 0 := by
    intro x
    rw [dBoth, dLevel, dFirst]
    unfold CollationData.CASE_FIRST
    omega
  have sKey : ∀ x : Int,
      and32 x (or32 CollationSettings.CASE_LEVEL CollationSettings.CASE_FIRST)
          = CollationSettings.CASE_FIRST ↔
        and32 x CollationSettings.CASE_LEVEL = 0 ∧ and32 x CollationSettings.CASE_FIRST ≠ 0 := by
    intro x
    rw [sBoth, sLevel, sFirst]
    unfold CollationSettings.CASE_FIRST
    omega
  have hne : CASE_AND_TERTIARY_MASK ≠ ONLY_TERTIARY_MASK := by decide
  refine ⟨⟨?_, ?_, ?_⟩, ⟨?_, ?_, ?_⟩, rfl, rfl⟩
  · unfold CollationData.getTertiaryMask
    exact (ite_eq_then_iff hne).trans (dKey o)
  · unfold CollationData.getTertiaryMask
    exact (ite_eq_else_iff hne).trans (not_congr (dKey o))
  · intro q h1 h2
    unfold CollationData.getTertiaryMask
    have hq := dKey q
    have ho := dKey o
    rw [h1, h2] at hq
    simp only [hq, ho]
  · unfold CollationSettings.getTertiaryMask
    exact (ite_eq_then_iff hne).trans (sKey o)
  · unfold CollationSettings.getTertiaryMask
    exact (ite_eq_else_iff hne).trans (not_congr (sKey o))
  · intro q h1 h2
    unfold CollationSettings.getTertiaryMask
    have hq := sKey q
    have ho := sKey o
    rw [h1, h2] at hq
    simp only [hq, ho]

theorem C12_getTertiaryMask_witness :
    CollationData.getTertiaryMask 0x0320 = CASE_AND_TERTIARY_MASK ∧
    CollationSettings.getTertiaryMask 0x3610 = ONLY_TERTIARY_MASK :=
  ⟨(C12_getTertiaryMask 0x0320).1.1.mpr (by decide),
    (C12_getTertiaryMask 0x3610).2.1.2.1.mpr (by decide)⟩

/-- C13: for every options word `o`, `sortsTertiaryUpperCaseFirst o` is true iff the
`CASE_LEVEL` bit is clear and both the `CASE_FIRST` and `UPPER_FIRST` bits are set, whatever the
other bits are; for `CollationData` and for `CollationSettings` with their bit positions. -/
theorem C13_sortsTertiaryUpperCaseFirst (o : Int) :
    ((CollationData.sortsTertiaryUpperCaseFirst o = true ↔
        and32 o CollationData.CASE_LEVEL = 0 ∧ and32 o CollationData.CASE_FIRST ≠ 0 ∧
          and32 o CollationData.UPPER_FIRST ≠ 0) ∧
      (∀ q : Int, and32 q CollationData.CASE_LEVEL = and32 o CollationData.CASE_LEVEL →
        and32 q CollationData.CASE_FIRST = and32 o CollationData.CASE_FIRST →
        and32 q CollationData.UPPER_FIRST = and32 o CollationData.UPPER_FIRST →
        CollationData.sortsTertiaryUpperCaseFirst q
          = CollationData.sortsTertiaryUpperCaseFirst o)) ∧
    ((CollationSettings.sortsTertiaryUpperCaseFirst o = true ↔
        and32 o CollationSettings.CASE_LEVEL = 0 ∧ and32 o CollationSettings.CASE_FIRST ≠ 0 ∧
          and32 o CollationSettings.UPPER_FIRST ≠ 0) ∧
      (∀ q : Int, and32 q CollationSettings.CASE_LEVEL = and32 o CollationSettings.CASE_LEVEL →
        and32 q CollationSettings.CASE_FIRST = and32 o CollationSettings.CASE_FIRST →
        and32 q CollationSettings.UPPER_FIRST = and32 o CollationSettings.UPPER_FIRST →
        CollationSettings.sortsTertiaryUpperCaseFirst q
          = CollationSettings.sortsTertiaryUpperCaseFirst o)) := by
  have dAll : ∀ x : Int,
      and32 x (or32 CollationData.CASE_LEVEL CollationData.CASE_FIRST_AND_UPPER_MASK)
        = ((16 * (bits32 x / 16 % 8) : Nat) : Int) :=
    fun x => and32_shifted_mask x 4 3 (by norm_num)
  have dLevel : ∀ x : Int, and32 x CollationData.CASE_LEVEL
      = ((64 * (bits32 x / 64 % 2) : Nat) : Int) :=
    fun x => and32_shifted_mask x 6 1 (by norm_num)
  have dFirst : ∀ x : Int, and32 x CollationData.CASE_FIRST
      = ((32 * (bits32 x / 32 % 2) : Nat) : Int) :=
    fun x => and32_shifted_mask x 5 1 (by norm_num)
  have dUpper : ∀ x : Int, and32 x CollationData.UPPER_FIRST
      = ((16 * (bits32 x / 16 % 2) : Nat) : Int) :=
    fun x => and32_shifted_mask x 4 1 (by norm_num)
  have sAll : ∀ x : Int,
      and32 x (or32 CollationSettings.CASE_LEVEL CollationSettings.CASE_FIRST_AND_UPPER_MASK)
        = ((256 * (bits32 x / 256 % 8) : Nat) : Int) :=
    fun x => and32_shifted_mask x 8 3 (by norm_num)
  have sLevel : ∀ x : Int, and32 x CollationSettings.CASE_LEVEL
      = ((1024 * (bits32 x / 1024 % 2) : Nat) : Int) :=
    fun x => and32_shifted_mask x 10 1 (by norm_num)
  have sFirst : ∀ x : Int, and32 x CollationSettings.CASE_FIRST
      = ((512 * (bits32 x / 512 % 2) : Nat) : Int) :=
    fun x => and32_shifted_mask x 9 1 (by norm_num)
  have sUpper : ∀ x : Int, and32 x CollationSettings.UPPER_FIRST
      = ((256 * (bits32 x / 256 % 2) : Nat) : Int) :=
    fun x => and32_shifted_mask x 8 1 (by norm_num)
  have dMask : CollationData.CASE_FIRST_AND_UPPER_MASK = 0x30 := by decide
  have sMask : CollationSettings.CASE_FIRST_AND_UPPER_MASK = 0x300 := by decide
  have dKey : ∀ x : Int,
      CollationData.sortsTertiaryUpperCaseFirst x = true ↔
        and32 x CollationData.CASE_LEVEL = 0 ∧ and32 x CollationData.CASE_FIRST ≠ 0 ∧
          and32 x CollationData.UPPER_FIRST ≠ 0 := by
    intro x
    unfold CollationData.sortsTertiaryUpperCaseFirst
    rw [decide_eq_true_iff, dAll, dLevel, dFirst, dUpper, dMask]
    omega
  have sKey : ∀ x : Int,
      CollationSettings.sortsTertiaryUpperCaseFirst x = true ↔
        and32 x CollationSettings.CASE_LEVEL = 0 ∧ and32 x CollationSettings.CASE_FIRST ≠ 0 ∧
          and32 x CollationSettings.UPPER_FIRST ≠ 0 := by
    intro x
    unfold CollationSettings.sortsTertiaryUpperCaseFirst
    rw [decide_eq_true_iff, sAll, sLevel, sFirst, sUpper, sMask]
    omega
  refine ⟨⟨dKey o, ?_⟩, ⟨sKey o, ?_⟩⟩
  · intro q h1 h2 h3
    have hq := dKey q
    rw [h1, h2, h3, ← dKey o] at hq
    exact Bool.eq_iff_iff.mpr hq
  · intro q h1 h2 h3
    have hq := sKey q
    rw [h1, h2, h3, ← sKey o] at hq
    exact Bool.eq_iff_iff.mpr hq

theorem C13_sortsTertiaryUpperCaseFirst_witness :
    CollationData.sortsTertiaryUpperCaseFirst 0x0333 = true ∧
    CollationSettings.sortsTertiaryUpperCaseFirst 0x3312 = true :=
  ⟨(C13_sortsTertiaryUpperCaseFirst 0x0333).1.1.mpr (by decide),
    (C13_sortsTertiaryUpperCaseFirst 0x3312).2.1.mpr (by decide)⟩

/-- C14 (scenario A): for a `CollationSettings` whose options word is 0, `getStrength` is
`NO_LEVEL` (0), `getAlternateHandling` is `UCOL_NON_IGNORABLE`, `getCaseFirst` is `UCOL_OFF`
and `dontCheckFCD` is true. -/
theorem C14_settings_zero_options :
    CollationSettings.getStrength 0 = NO_LEVEL ∧ NO_LEVEL = 0 ∧
    CollationSettings.getAlternateHandling 0 = UColAttributeValue.UCOL_NON_IGNORABLE ∧
    CollationSettings.getCaseFirst 0 = UColAttributeValue.UCOL_OFF ∧
    CollationSettings.dontCheckFCD 0 = true := by
  decide

/-- C15: `scriptByteFromInt` and `scriptIntFromByte` are mutually inverse between the bytes
0..255 and the codes `0..0xF7` together with `0x1000..0x1007`: a byte decodes to such a code
and encodes back to itself; such a code encodes to a byte and decodes back to itself; scripts
below `0xF8` keep their value and `UCOL_REORDER_CODE_FIRST` maps to `0xF8`. -/
theorem C15_scriptByte_inverse :
    (∀ b : Int, 0 ≤ b → b ≤ 255 →
      ((0 ≤ CollationBaseData.scriptIntFromByte b ∧
          CollationBaseData.scriptIntFromByte b ≤ 0xF7) ∨
        (0x1000 ≤ CollationBaseData.scriptIntFromByte b ∧
          CollationBaseData.scriptIntFromByte b ≤ 0x1007)) ∧
      CollationBaseData.scriptByteFromInt (CollationBaseData.scriptIntFromByte b) = b) ∧
    (∀ c : Int, (0 ≤ c ∧ c ≤ 0xF7) ∨ (0x1000 ≤ c ∧ c ≤ 0x1007) →
      0 ≤ CollationBaseData.scriptByteFromInt c ∧
      CollationBaseData.scriptByteFromInt c ≤ 255 ∧
      CollationBaseData.scriptIntFromByte (CollationBaseData.scriptByteFromInt c) = c) ∧
    (∀ c : Int, 0 ≤ c → c < 0xF8 → CollationBaseData.scriptByteFromInt c = c) ∧
    CollationBaseData.scriptByteFromInt CollationBaseData.UCOL_REORDER_CODE_FIRST = 0xF8 ∧
    CollationBaseData.UCOL_REORDER_CODE_FIRST = 0x1000 := by
  have hint : ∀ b : Int, 0 ≤ b → b ≤ 255 →
      CollationBaseData.scriptIntFromByte b = if b < 0xF8 then b else 0x1000 + b - 0xF8 := by
    intro b h0 h1
    unfold CollationBaseData.scriptIntFromByte CollationBaseData.SCRIPT_BYTE_LIMIT
      CollationBaseData.UCOL_REORDER_CODE_FIRST
    split
    · rfl
    · rw [wrap32_of_range (0x1000 + b) (by omega) (by omega),
        wrap32_of_range (0x1000 + b - 0xF8) (by omega) (by omega)]
  have hbyte : ∀ c : Int, CollationBaseData.scriptByteFromInt c =
      if c < 0xF8 then c else if 0 ≤ c - 0x1000 ∧ c - 0x1000 ≤ 0xff - 0xF8
        then 0xF8 + (c - 0x1000) else -1 := by
    intro c
    rfl
  refine ⟨?_, ?_, ?_, by decide, rfl⟩
  · intro b h0 h1
    rw [hint b h0 h1, hbyte]
    split_ifs <;> omega
  · intro c hc
    have hr : 0 ≤ CollationBaseData.scriptByteFromInt c ∧
        CollationBaseData.scriptByteFromInt c ≤ 255 := by
      rw [hbyte]
      split <;> omega
    refine ⟨hr.1, hr.2, ?_⟩
    rw [hint _ hr.1 hr.2, hbyte]
    split_ifs <;> omega
  · intro c _ h1
    rw [hbyte, if_pos h1]

theorem C15_scriptByte_inverse_witness :
    CollationBaseData.scriptByteFromInt (CollationBaseData.scriptIntFromByte 0xFA) = 0xFA ∧
    CollationBaseData.scriptIntFromByte (CollationBaseData.scriptByteFromInt 0x1003) = 0x1003 ∧
    CollationBaseData.scriptByteFromInt 25 = 25 :=
  ⟨(C15_scriptByte_inverse.1 0xFA (by decide) (by decide)).2,
    (C15_scriptByte_inverse.2.1 0x1003 (Or.inr (by decide))).2.2,
    C15_scriptByte_inverse.2.2.1 25 (by decide) (by decide)⟩

/-- C16: `scriptByteFromInt` returns the invalid sentinel `USCRIPT_INVALID_CODE` (-1) for every
32-bit signed code beyond the byte-space ceiling: for `248 ≤ c < 0x1000` and for
`c ≥ 0x1008`. -/
theorem C16_scriptByteFromInt_invalid (c : Int) (hc : c < 2 ^ 31)
    (h : (248 ≤ c ∧ c < 0x1000) ∨ 0x1008 ≤ c) :
    CollationBaseData.scriptByteFromInt c = CollationBaseData.USCRIPT_INVALID_CODE ∧
    CollationBaseData.USCRIPT_INVALID_CODE = -1 := by
  refine ⟨?_, rfl⟩
  unfold CollationBaseData.scriptByteFromInt CollationBaseData.SCRIPT_BYTE_LIMIT
    CollationBaseData.UCOL_REORDER_CODE_FIRST CollationBaseData.USCRIPT_INVALID_CODE
  dsimp only
  split
  · omega
  · split <;> omega

theorem C16_scriptByteFromInt_invalid_witness :
    ((0x1008 : Int) < 2 ^ 31 ∧ ((248 ≤ (0x1008 : Int) ∧ (0x1008 : Int) < 0x1000) ∨
      (0x1008 : Int) ≤ 0x1008)) ∧
    CollationBaseData.scriptByteFromInt 0x1008 = CollationBaseData.USCRIPT_INVALID_CODE :=
  ⟨⟨by decide, Or.inr (by decide)⟩,
    (C16_scriptByteFromInt_invalid 0x1008 (by decide) (Or.inr (by decide))).1⟩

/-- C17 as stated fails: the 32-bit signed code `-2` is returned unchanged, which is neither a
byte value nor the invalid sentinel. -/
theorem C17_counterexample :
    (-2 ^ 31 ≤ (-2 : Int) ∧ (-2 : Int) < 2 ^ 31) ∧
    ¬ ((0 ≤ CollationBaseData.scriptByteFromInt (-2) ∧
          CollationBaseData.scriptByteFromInt (-2) ≤ 255) ∨
        CollationBaseData.scriptByteFromInt (-2) = CollationBaseData.USCRIPT_INVALID_CODE) := by
  decide

/-- C17 (amended): for every 32-bit signed code `c ≥ -1`, `scriptByteFromInt c` is either a
byte value in 0..255 or the invalid sentinel `USCRIPT_INVALID_CODE` (-1); a negative code is
below `SCRIPT_BYTE_LIMIT` and is returned unchanged. -/
theorem C17_scriptByteFromInt_range (c : Int) (hc : c < 2 ^ 31) :
    (-1 ≤ c →
      (0 ≤ CollationBaseData.scriptByteFromInt c ∧
          CollationBaseData.scriptByteFromInt c ≤ 255) ∨
        CollationBaseData.scriptByteFromInt c = CollationBaseData.USCRIPT_INVALID_CODE) ∧
    (c < 0 → CollationBaseData.scriptByteFromInt c = c) := by
  unfold CollationBaseData.scriptByteFromInt CollationBaseData.SCRIPT_BYTE_LIMIT
    CollationBaseData.UCOL_REORDER_CODE_FIRST CollationBaseData.USCRIPT_INVALID_CODE
  dsimp only
  constructor
  · intro h
    split
    · omega
    · split <;> omega
  · intro h
    rw [if_pos (by omega)]

theorem C17_scriptByteFromInt_range_witness :
    ((0x1234 : Int) < 2 ^ 31 ∧ (-1 : Int) ≤ 0x1234) ∧
    ((0 ≤ CollationBaseData.scriptByteFromInt 0x1234 ∧
        CollationBaseData.scriptByteFromInt 0x1234 ≤ 255) ∨
      CollationBaseData.scriptByteFromInt 0x1234 = CollationBaseData.USCRIPT_INVALID_CODE) :=
  ⟨⟨by decide, by decide⟩, (C17_scriptByteFromInt_range 0x1234 (by decide)).1 (by decide)⟩

/-- C18: in `CollationData` the masks `CHECK_FCD`, `CODAN`, `ALTERNATE_MASK`, `UPPER_FIRST`,
`CASE_FIRST`, `CASE_LEVEL`, `BACKWARD_SECONDARY`, `STRENGTH_MASK` are pairwise disjoint with
union `0xFFF`, `STRENGTH_MASK = 0xF << STRENGTH_SHIFT` and `SHIFTED` lies in `ALTERNATE_MASK`;
in `CollationSettings` the masks `CHECK_FCD`, `NUMERIC`, `ALTERNATE_MASK`, `MAX_VARIABLE_MASK`,
`UPPER_FIRST`, `CASE_FIRST`, `CASE_LEVEL`, `BACKWARD_SECONDARY`, `STRENGTH_MASK` are pairwise
disjoint with union `0xFFFF`, and both 4-bit masks are `0xF` shifted by their shift. -/
theorem C18_options_layouts :
    (List.Pairwise (fun a b => and32 a b = 0)
        [CollationData.CHECK_FCD, CollationData.CODAN, CollationData.ALTERNATE_MASK,
          CollationData.UPPER_FIRST, CollationData.CASE_FIRST, CollationData.CASE_LEVEL,
          CollationData.BACKWARD_SECONDARY, CollationData.STRENGTH_MASK] ∧
      List.foldl or32 0
        [CollationData.CHECK_FCD, CollationData.CODAN, CollationData.ALTERNATE_MASK,
          CollationData.UPPER_FIRST, CollationData.CASE_FIRST, CollationData.CASE_LEVEL,
          CollationData.BACKWARD_SECONDARY, CollationData.STRENGTH_MASK] = 0xFFF ∧
      CollationData.STRENGTH_MASK = shl32i 0xF CollationData.STRENGTH_SHIFT ∧
      and32 CollationData.SHIFTED CollationData.ALTERNATE_MASK = CollationData.SHIFTED) ∧
    (List.Pairwise (fun a b => and32 a b = 0)
        [CollationSettings.CHECK_FCD, CollationSettings.NUMERIC,
          CollationSettings.ALTERNATE_MASK, CollationSettings.MAX_VARIABLE_MASK,
          CollationSettings.UPPER_FIRST, CollationSettings.CASE_FIRST,
          CollationSettings.CASE_LEVEL, CollationSettings.BACKWARD_SECONDARY,
          CollationSettings.STRENGTH_MASK] ∧
      List.foldl or32 0
        [CollationSettings.CHECK_FCD, CollationSettings.NUMERIC,
          CollationSettings.ALTERNATE_MASK, CollationSettings.MAX_VARIABLE_MASK,
          CollationSettings.UPPER_FIRST, CollationSettings.CASE_FIRST,
          CollationSettings.CASE_LEVEL, CollationSettings.BACKWARD_SECONDARY,
          CollationSettings.STRENGTH_MASK] = 0xFFFF ∧
      CollationSettings.MAX_VARIABLE_MASK
        = shl32i 0xF CollationSettings.MAX_VARIABLE_SHIFT ∧
      CollationSettings.STRENGTH_MASK = shl32i 0xF CollationSettings.STRENGTH_SHIFT) := by
  decide

/-- C19: every attribute setter is atomic on bad input: for `setStrength`, `setFlag`,
`setCaseFirst` and `setAlternateHandling` of `CollationData` and of `CollationSettings`, a
requested value outside the legal values of the attribute (and not the use-default sentinel)
gives the invalid-argument error and leaves the options word as it was. -/
theorem C19_setters_atomic (options defaultOptions : Int) :
    ((∀ (legal : Int → Bool) (useDefault value : Int),
        value ≠ useDefault → legal value = false →
        CollationData.setStrength legal useDefault options value defaultOptions
          = (options, UErrorCode.U_ILLEGAL_ARGUMENT_ERROR)) ∧
      (∀ (bit : Int) (value : UColAttributeValue),
        value ≠ UColAttributeValue.UCOL_ON → value ≠ UColAttributeValue.UCOL_OFF →
        value ≠ UColAttributeValue.UCOL_DEFAULT →
        CollationData.setFlag options bit value defaultOptions
          = (options, UErrorCode.U_ILLEGAL_ARGUMENT_ERROR)) ∧
      (∀ value : UColAttributeValue,
        value ≠ UColAttributeValue.UCOL_OFF → value ≠ UColAttributeValue.UCOL_LOWER_FIRST →
        value ≠ UColAttributeValue.UCOL_UPPER_FIRST → value ≠ UColAttributeValue.UCOL_DEFAULT →
        CollationData.setCaseFirst options value defaultOptions
          = (options, UErrorCode.U_ILLEGAL_ARGUMENT_ERROR)) ∧
      (∀ value : UColAttributeValue,
        value ≠ UColAttributeValue.UCOL_NON_IGNORABLE → value ≠ UColAttributeValue.UCOL_SHIFTED →
        value ≠ UColAttributeValue.UCOL_DEFAULT →
        CollationData.setAlternateHandling options value defaultOptions
          = (options, UErrorCode.U_ILLEGAL_ARGUMENT_ERROR))) ∧
    ((∀ (legal : Int → Bool) (useDefault value : Int),
        value ≠ useDefault → legal value = false →
        CollationSettings.setStrength legal useDefault options value defaultOptions
          = (options, UErrorCode.U_ILLEGAL_ARGUMENT_ERROR)) ∧
      (∀ (bit : Int) (value : UColAttributeValue),
        value ≠ UColAttributeValue.UCOL_ON → value ≠ UColAttributeValue.UCOL_OFF →
        value ≠ UColAttributeValue.UCOL_DEFAULT →
        CollationSettings.setFlag options bit value defaultOptions
          = (options, UErrorCode.U_ILLEGAL_ARGUMENT_ERROR)) ∧
      (∀ value : UColAttributeValue,
        value ≠ UColAttributeValue.UCOL_OFF → value ≠ UColAttributeValue.UCOL_LOWER_FIRST →
        value ≠ UColAttributeValue.UCOL_UPPER_FIRST → value ≠ UColAttributeValue.UCOL_DEFAULT →
        CollationSettings.setCaseFirst options value defaultOptions
          = (options, UErrorCode.U_ILLEGAL_ARGUMENT_ERROR)) ∧
      (∀ value : UColAttributeValue,
        value ≠ UColAttributeValue.UCOL_NON_IGNORABLE → value ≠ UColAttributeValue.UCOL_SHIFTED →
        value ≠ UColAttributeValue.UCOL_DEFAULT →
        CollationSettings.setAlternateHandling options value defaultOptions
          = (options, UErrorCode.U_ILLEGAL_ARGUMENT_ERROR))) := by
  constructor
  · refine ⟨?_, ?_, ?_, ?_⟩
    · intro legal useDefault value h1 h2
      unfold CollationData.setStrength
      rw [if_neg h1, h2]
      rfl
    · intro bit value h1 h2 h3
      cases value <;> first | rfl | contradiction
    · intro value h1 h2 h3 h4
      cases value <;> first | rfl | contradiction
    · intro value h1 h2 h3
      cases value <;> first | rfl | contradiction
  · refine ⟨?_, ?_, ?_, ?_⟩
    · intro legal useDefault value h1 h2
      unfold CollationSettings.setStrength
      rw [if_neg h1, h2]
      rfl
    · intro bit value h1 h2 h3
      cases value <;> first | rfl | contradiction
    · intro value h1 h2 h3 h4
      cases value <;> first | rfl | contradiction
    · intro value h1 h2 h3
      cases value <;> first | rfl | contradiction

theorem C19_setters_atomic_witness :
    CollationData.setStrength (fun v => decide (v ∈ [0, 1, 2, 3, 15])) (-1) 0x0335 7 0x0200
      = (0x0335, UErrorCode.U_ILLEGAL_ARGUMENT_ERROR) ∧
    CollationSettings.setCaseFirst 0x2310 UColAttributeValue.UCOL_SHIFTED 0
      = (0x2310, UErrorCode.U_ILLEGAL_ARGUMENT_ERROR) ∧
    CollationSettings.setFlag 0x2310 CollationSettings.NUMERIC
        UColAttributeValue.UCOL_TERTIARY 0
      = (0x2310, UErrorCode.U_ILLEGAL_ARGUMENT_ERROR) ∧
    CollationData.setAlternateHandling 0x0335 UColAttributeValue.UCOL_ON 0
      = (0x0335, UErrorCode.U_ILLEGAL_ARGUMENT_ERROR) :=
  ⟨(C19_setters_atomic 0x0335 0x0200).1.1 (fun v => decide (v ∈ [0, 1, 2, 3, 15])) (-1) 7
      (by decide) (by decide),
    (C19_setters_atomic 0x2310 0).2.2.2.1 UColAttributeValue.UCOL_SHIFTED
      (by decide) (by decide) (by decide) (by decide),
    (C19_setters_atomic 0x2310 0).2.2.1 CollationSettings.NUMERIC
      UColAttributeValue.UCOL_TERTIARY (by decide) (by decide) (by decide),
    (C19_setters_atomic 0x0335 0).1.2.2.2 UColAttributeValue.UCOL_ON
      (by decide) (by decide) (by decide)⟩

/-- C20: for every code point `c`, `unassignedCEFromCodePoint c` is the 64-bit pattern whose
primary field is `unassignedPrimaryFromCodePoint c` and whose low 32 bits are
`COMMON_SEC_AND_TER_CE` (`0x05000500`); two code points get the same unassigned CE iff they get
the same unassigned primary, and a larger primary gives a larger CE as an unsigned 64-bit
pattern. The primary function is any map into the `uint32_t` range. -/
theorem C20_unassignedCEFromCodePoint (f : Int → Nat) (hf : ∀ c, f c < 2 ^ 32) (c d : Int) :
    primaryField (unassignedCEFromCodePoint f c) = f c ∧
    lower32 (unassignedCEFromCodePoint f c) = COMMON_SEC_AND_TER_CE ∧
    COMMON_SEC_AND_TER_CE = 0x05000500 ∧
    (unassignedCEFromCodePoint f c = unassignedCEFromCodePoint f d ↔ f c = f d) ∧
    (f c < f d →
      bits64 (unassignedCEFromCodePoint f c) < bits64 (unassignedCEFromCodePoint f d)) := by
  have hc := unassignedCE_bits f c (hf c)
  have hd := unassignedCE_bits f d (hf d)
  have hfc := hf c
  have hfd := hf d
  refine ⟨?_, ?_, rfl, ?_, ?_⟩
  · unfold primaryField
    rw [hc, Nat.shiftRight_eq_div_pow]
    omega
  · unfold lower32 COMMON_SEC_AND_TER_CE
    rw [hc, land_ffffffff]
    omega
  · constructor
    · intro h
      have hb := congrArg bits64 h
      rw [hc, hd] at hb
      omega
    · intro h
      unfold unassignedCEFromCodePoint
      rw [h]
  · intro h
    rw [hc, hd]
    omega

theorem C20_unassignedCEFromCodePoint_witness :
    (∀ c : Int, (fun x : Int => x.toNat % 2 ^ 32) c < 2 ^ 32) ∧
    primaryField (unassignedCEFromCodePoint (fun x : Int => x.toNat % 2 ^ 32) 0x10FFFF)
      = 0x10FFFF ∧
    lower32 (unassignedCEFromCodePoint (fun x : Int => x.toNat % 2 ^ 32) 0x10FFFF)
      = COMMON_SEC_AND_TER_CE :=
  have hf : ∀ c : Int, (fun x : Int => x.toNat % 2 ^ 32) c < 2 ^ 32 :=
    fun c => Nat.mod_lt _ (by norm_num)
  have h := C20_unassignedCEFromCodePoint (fun x : Int => x.toNat % 2 ^ 32) hf 0x10FFFF 0
  ⟨hf, h.1.trans (by decide), h.2.1⟩

/-- C21: `CollationSettings.getCaseFirst` is the tri-value decode of the two case bits: for
every options word it returns `UCOL_OFF` iff `CASE_FIRST` and `UPPER_FIRST` are both clear,
`UCOL_LOWER_FIRST` iff `CASE_FIRST` is set and `UPPER_FIRST` is clear, and `UCOL_UPPER_FIRST`
otherwise; on an options word where `CASE_FIRST` off implies `UPPER_FIRST` off it returns
`UCOL_UPPER_FIRST` iff both bits are set. -/
theorem C21_getCaseFirst (o : Int) :
    (CollationSettings.getCaseFirst o = UColAttributeValue.UCOL_OFF ↔
      and32 o CollationSettings.CASE_FIRST = 0 ∧ and32 o CollationSettings.UPPER_FIRST = 0) ∧
    (CollationSettings.getCaseFirst o = UColAttributeValue.UCOL_LOWER_FIRST ↔
      and32 o CollationSettings.CASE_FIRST ≠ 0 ∧ and32 o CollationSettings.UPPER_FIRST = 0) ∧
    (CollationSettings.getCaseFirst o = UColAttributeValue.UCOL_UPPER_FIRST ↔
      ¬ (and32 o CollationSettings.CASE_FIRST = 0 ∧ and32 o CollationSettings.UPPER_FIRST = 0) ∧
      ¬ (and32 o CollationSettings.CASE_FIRST ≠ 0 ∧
          and32 o CollationSettings.UPPER_FIRST = 0)) ∧
    ((and32 o CollationSettings.CASE_FIRST = 0 → and32 o CollationSettings.UPPER_FIRST = 0) →
      (CollationSettings.getCaseFirst o = UColAttributeValue.UCOL_UPPER_FIRST ↔
        and32 o CollationSettings.CASE_FIRST ≠ 0 ∧
          and32 o CollationSettings.UPPER_FIRST ≠ 0)) := by
  rw [settings_getCaseFirst_eq, settings_caseFirst, settings_upperFirst]
  have hv : bits32 o / 256 % 4 < 4 := Nat.mod_lt _ (by norm_num)
  by_cases h0 : bits32 o / 256 % 4 = 0
  · rw [if_pos h0]
    refine ⟨?_, ?_, ?_, ?_⟩
    · constructor
      · intro _
        omega
      · intro _
        rfl
    · constructor
      · intro h
        cases h
      · intro h
        omega
    · constructor
      · intro h
        cases h
      · intro h
        omega
    · intro _
      constructor
      · intro h
        cases h
      · intro h
        omega
  · rw [if_neg h0]
    by_cases h2 : bits32 o / 256 % 4 = 2
    · rw [if_pos h2]
      refine ⟨?_, ?_, ?_, ?_⟩
      · constructor
        · intro h
          cases h
        · intro h
          omega
      · constructor
        · intro _
          omega
        · intro _
          rfl
      · constructor
        · intro h
          cases h
        · intro h
          omega
      · intro _
        constructor
        · intro h
          cases h
        · intro h
          omega
    · rw [if_neg h2]
      refine ⟨?_, ?_, ?_, ?_⟩
      · constructor
        · intro h
          cases h
        · intro h
          omega
      · constructor
        · intro h
          cases h
        · intro h
          omega
      · constructor
        · intro _
          omega
        · intro _
          rfl
      · intro hinv
        constructor
        · intro _
          omega
        · intro _
          rfl

theorem C21_getCaseFirst_witness :
    CollationSettings.getCaseFirst 0x2310 = UColAttributeValue.UCOL_UPPER_FIRST ∧
    CollationSettings.getCaseFirst 0x2210 = UColAttributeValue.UCOL_LOWER_FIRST :=
  ⟨((C21_getCaseFirst 0x2310).2.2.2 (by decide)).mpr (by decide),
    (C21_getCaseFirst 0x2210).2.1.mpr (by decide)⟩

/-- C22: `dontCheckFCD`, `hasBackwardSecondary` and `isNumeric` are single-bit predicates of
the Settings options word: `dontCheckFCD` iff `getFlag CHECK_FCD` is `UCOL_OFF`,
`hasBackwardSecondary` iff `getFlag BACKWARD_SECONDARY` is `UCOL_ON`, `isNumeric` iff
`getFlag NUMERIC` is `UCOL_ON`; each reads one bit of the word (bits 0, 11 and 1) and is
unchanged when any other bit is flipped. -/
theorem C22_bit_predicates (o : Int) :
    (CollationSettings.dontCheckFCD o = true ↔
      CollationSettings.getFlag o CollationSettings.CHECK_FCD = UColAttributeValue.UCOL_OFF) ∧
    (CollationSettings.hasBackwardSecondary o = true ↔
      CollationSettings.getFlag o CollationSettings.BACKWARD_SECONDARY
        = UColAttributeValue.UCOL_ON) ∧
    (CollationSettings.isNumeric o = true ↔
      CollationSettings.getFlag o CollationSettings.NUMERIC = UColAttributeValue.UCOL_ON) ∧
    (CollationSettings.dontCheckFCD o = !(bits32 o).testBit 0 ∧
      CollationSettings.hasBackwardSecondary o = (bits32 o).testBit 11 ∧
      CollationSettings.isNumeric o = (bits32 o).testBit 1) ∧
    (∀ k : Nat, k < 32 → k ≠ 0 →
      CollationSettings.dontCheckFCD (flipBit o k) = CollationSettings.dontCheckFCD o) ∧
    (∀ k : Nat, k < 32 → k ≠ 11 →
      CollationSettings.hasBackwardSecondary (flipBit o k)
        = CollationSettings.hasBackwardSecondary o) ∧
    (∀ k : Nat, k < 32 → k ≠ 1 →
      CollationSettings.isNumeric (flipBit o k) = CollationSettings.isNumeric o) := by
  refine ⟨?_, ?_, ?_, ⟨settings_dontCheckFCD_eq o, settings_hasBackwardSecondary_eq o,
    settings_isNumeric_eq o⟩, ?_, ?_, ?_⟩
  · unfold CollationSettings.dontCheckFCD CollationSettings.getFlag
    by_cases h : and32 o CollationSettings.CHECK_FCD = 0
    · rw [decide_eq_true h, if_neg (not_not.mpr h)]
      exact ⟨fun _ => rfl, fun _ => rfl⟩
    · rw [decide_eq_false h, if_pos h]
      constructor
      · intro e
        cases e
      · intro e
        cases e
  · unfold CollationSettings.hasBackwardSecondary CollationSettings.getFlag
    by_cases h : and32 o CollationSettings.BACKWARD_SECONDARY = 0
    · rw [decide_eq_false (not_not.mpr h), if_neg (not_not.mpr h)]
      constructor
      · intro e
        cases e
      · intro e
        cases e
    · rw [decide_eq_true h, if_pos h]
      exact ⟨fun _ => rfl, fun _ => rfl⟩
  · unfold CollationSettings.isNumeric CollationSettings.getFlag
    by_cases h : and32 o CollationSettings.NUMERIC = 0
    · rw [decide_eq_false (not_not.mpr h), if_neg (not_not.mpr h)]
      constructor
      · intro e
        cases e
      · intro e
        cases e
    · rw [decide_eq_true h, if_pos h]
      exact ⟨fun _ => rfl, fun _ => rfl⟩
  · intro k hk hne
    rw [settings_dontCheckFCD_eq, settings_dontCheckFCD_eq, flipBit_testBit o k 0 hk hne]
  · intro k hk hne
    rw [settings_hasBackwardSecondary_eq, settings_hasBackwardSecondary_eq,
      flipBit_testBit o k 11 hk hne]
  · intro k hk hne
    rw [settings_isNumeric_eq, settings_isNumeric_eq, flipBit_testBit o k 1 hk hne]

theorem C22_bit_predicates_witness :
    ((9 : Nat) < 32 ∧ (9 : Nat) ≠ 1) ∧
    CollationSettings.isNumeric (flipBit 0x2012 9) = CollationSettings.isNumeric 0x2012 ∧
    CollationSettings.isNumeric 0x2012 = true :=
  ⟨⟨by decide, by decide⟩, (C22_bit_predicates 0x2012).2.2.2.2.2.2 9 (by decide) (by decide),
    (C22_bit_predicates 0x2012).2.2.1.mpr (by decide)⟩

/-- C23: strength is the top used bit field, so no mask is needed after shifting: for a
`CollationSettings` options word `o` with `0 ≤ o < 0x10000`, `getStrength o` is
`(o & STRENGTH_MASK) >> STRENGTH_SHIFT` and lies in 0..15, and for `s` in 0..15
`getStrength ((o & ~STRENGTH_MASK) | (s << STRENGTH_SHIFT)) = s` while the bits of `o` below
the strength field are unchanged; likewise for `CollationData` with `0 ≤ o < 0x1000`. -/
theorem C23_getStrength_field (o : Int) :
    (0 ≤ o → o < 0x10000 →
      CollationSettings.getStrength o
        = sar32 (and32 o CollationSettings.STRENGTH_MASK) CollationSettings.STRENGTH_SHIFT ∧
      0 ≤ CollationSettings.getStrength o ∧ CollationSettings.getStrength o ≤ 15 ∧
      ∀ s : Int, 0 ≤ s → s ≤ 15 →
        CollationSettings.getStrength
            (or32 (and32 o (not32 CollationSettings.STRENGTH_MASK)) (shl32i s CollationSettings.STRENGTH_SHIFT)) = s ∧
        and32 (or32 (and32 o (not32 CollationSettings.STRENGTH_MASK)) (shl32i s CollationSettings.STRENGTH_SHIFT))
            0xFFF = and32 o 0xFFF) ∧
    (0 ≤ o → o < 0x1000 →
      CollationData.getStrength o
        = sar32 (and32 o CollationData.STRENGTH_MASK) CollationData.STRENGTH_SHIFT ∧
      0 ≤ CollationData.getStrength o ∧ CollationData.getStrength o ≤ 15 ∧
      ∀ s : Int, 0 ≤ s → s ≤ 15 →
        CollationData.getStrength
            (or32 (and32 o (not32 CollationData.STRENGTH_MASK)) (shl32i s CollationData.STRENGTH_SHIFT)) = s ∧
        and32 (or32 (and32 o (not32 CollationData.STRENGTH_MASK)) (shl32i s CollationData.STRENGTH_SHIFT))
            0xFF = and32 o 0xFF) := by
  constructor
  · intro h0 h1
    have hg : ∀ x : Int, CollationSettings.getStrength x = x / 4096 := by
      intro x
      unfold CollationSettings.getStrength sar32
      rfl
    have hsar : ∀ x : Int, sar32 x CollationSettings.STRENGTH_SHIFT = x / 4096 := by
      intro x
      unfold sar32
      rfl
    have hm : and32 o CollationSettings.STRENGTH_MASK = ((4096 * (bits32 o / 4096 % 16) : Nat) : Int) :=
      and32_shifted_mask o 12 4 (by norm_num)
    have hlow : ∀ x : Int, and32 x 0xFFF = ((1 * (bits32 x / 1 % 4096) : Nat) : Int) :=
      fun x => and32_shifted_mask x 0 12 (by norm_num)
    have hbo : bits32 o = o.toNat := bits32_of_nonneg o h0 (by omega)
    refine ⟨?_, ?_, ?_, ?_⟩
    · rw [hm, hg, hsar, hbo]
      omega
    · rw [hg]
      omega
    · rw [hg]
      omega
    · intro s hs0 hs1
      rw [settings_withStrength o s h0 h1 hs0 hs1, hg, hlow, hlow, hbo,
        bits32_of_nonneg (s * 4096 + o % 4096) (by omega) (by omega)]
      constructor <;> omega
  · intro h0 h1
    have hg : ∀ x : Int, CollationData.getStrength x = x / 256 := by
      intro x
      unfold CollationData.getStrength sar32
      rfl
    have hsar : ∀ x : Int, sar32 x CollationData.STRENGTH_SHIFT = x / 256 := by
      intro x
      unfold sar32
      rfl
    have hm : and32 o CollationData.STRENGTH_MASK = ((256 * (bits32 o / 256 % 16) : Nat) : Int) :=
      and32_shifted_mask o 8 4 (by norm_num)
    have hlow : ∀ x : Int, and32 x 0xFF = ((1 * (bits32 x / 1 % 256) : Nat) : Int) :=
      fun x => and32_shifted_mask x 0 8 (by norm_num)
    have hbo : bits32 o = o.toNat := bits32_of_nonneg o h0 (by omega)
    refine ⟨?_, ?_, ?_, ?_⟩
    · rw [hm, hg, hsar, hbo]
      omega
    · rw [hg]
      omega
    · rw [hg]
      omega
    · intro s hs0 hs1
      rw [data_withStrength o s h0 h1 hs0 hs1, hg, hlow, hlow, hbo,
        bits32_of_nonneg (s * 256 + o % 256) (by omega) (by omega)]
      constructor <;> omega

theorem C23_getStrength_field_witness :
    ((0 : Int) ≤ 0x2310 ∧ (0x2310 : Int) < 0x10000 ∧ (0 : Int) ≤ 15 ∧ (15 : Int) ≤ 15) ∧
    CollationSettings.getStrength 0x2310 = 2 ∧
    CollationSettings.getStrength
      (or32 (and32 0x2310 (not32 CollationSettings.STRENGTH_MASK))
        (shl32i 15 CollationSettings.STRENGTH_SHIFT)) = 15 :=
  have h := (C23_getStrength_field 0x2310).1 (by decide) (by decide)
  ⟨⟨by decide, by decide, by decide, by decide⟩, h.1.trans (by decide),
    (h.2.2.2 15 (by decide) (by decide)).1⟩

/-- C24: the Settings layout is the Data layout with the bits above the alternate-handling
field moved up by 4 to make room for maxVariable: for a Data options word `d` with
`0 ≤ d < 0x1000` and `m` in 0..15, with `s = (d & 0xF) | (m << 4) | ((d & 0xFF0) << 4)`, the
Settings tertiary mask, upper-case-first predicate and strength of `s` equal the Data ones
of `d`. -/
theorem C24_settings_layout_of_data (d m : Int) (hd0 : 0 ≤ d) (hd1 : d < 0x1000)
    (hm0 : 0 ≤ m) (hm1 : m ≤ 15) :
    CollationSettings.getTertiaryMask
        (or32 (or32 (and32 d 0xF) (shl32i m 4)) (shl32i (and32 d 0xFF0) 4))
      = CollationData.getTertiaryMask d ∧
    CollationSettings.sortsTertiaryUpperCaseFirst
        (or32 (or32 (and32 d 0xF) (shl32i m 4)) (shl32i (and32 d 0xFF0) 4))
      = CollationData.sortsTertiaryUpperCaseFirst d ∧
    CollationSettings.getStrength
        (or32 (or32 (and32 d 0xF) (shl32i m 4)) (shl32i (and32 d 0xFF0) 4))
      = CollationData.getStrength d := by
  lift d to ℕ using hd0
  lift m to ℕ using hm0
  have hd : d < 0x1000 := by omega
  have hm : m ≤ 15 := by omega
  have hbd : bits32 (d : Int) = d := bits32_natCast d (by omega)
  have hbs : bits32 ((256 * (d / 16) + 16 * m + d % 16 : Nat) : Int)
      = 256 * (d / 16) + 16 * m + d % 16 := bits32_natCast _ (by omega)
  have e512 : (256 * (d / 16) + 16 * m + d % 16) / 512 = d / 32 := by omega
  have e256 : (256 * (d / 16) + 16 * m + d % 16) / 256 = d / 16 := by omega
  rw [settings_word_eq d m hd hm]
  refine ⟨?_, ?_, ?_⟩
  · rw [settings_getTertiaryMask_eq, data_getTertiaryMask_eq, hbd, hbs, e512]
  · rw [settings_sorts_eq, data_sorts_eq, hbd, hbs, e256]
  · have hs : ∀ x : Int, CollationSettings.getStrength x = x / 4096 := by
      intro x
      unfold CollationSettings.getStrength sar32
      rfl
    have hdd : ∀ x : Int, CollationData.getStrength x = x / 256 := by
      intro x
      unfold CollationData.getStrength sar32
      rfl
    rw [hs, hdd]
    omega

theorem C24_settings_layout_of_data_witness :
    ((0 : Int) ≤ 0x0335 ∧ (0x0335 : Int) < 0x1000 ∧ (0 : Int) ≤ 1 ∧ (1 : Int) ≤ 15) ∧
    or32 (or32 (and32 0x0335 0xF) (shl32i 1 4)) (shl32i (and32 0x0335 0xFF0) 4) = 0x3315 ∧
    CollationSettings.getTertiaryMask
        (or32 (or32 (and32 0x0335 0xF) (shl32i 1 4)) (shl32i (and32 0x0335 0xFF0) 4))
      = CollationData.getTertiaryMask 0x0335 ∧
    CollationSettings.getStrength
        (or32 (or32 (and32 0x0335 0xF) (shl32i 1 4)) (shl32i (and32 0x0335 0xFF0) 4))
      = CollationData.getStrength 0x0335 :=
  have h := C24_settings_layout_of_data 0x0335 1 (by decide) (by decide) (by decide) (by decide)
  ⟨⟨by decide, by decide, by decide, by decide⟩, by decide, h.1, h.2.2⟩

/-- C25: the named boundary CE32 constants decode to their named weights:
`MERGE_SEPARATOR_CE32` (`0x02000202`) and `MAX_REGULAR_CE32` (`0xFEFF0505`) are non-special;
the first decodes to primary `MERGE_SEPARATOR_PRIMARY` and low 32 bits
`MERGE_SEPARATOR_LOWER32` (secondary and tertiary both `MERGE_SEPARATOR_WEIGHT16`), the second
to primary `MAX_PRIMARY` and low 32 bits `COMMON_SEC_AND_TER_CE`. -/
theorem C25_boundary_constants :
    MERGE_SEPARATOR_CE32 = 0x02000202 ∧ MAX_REGULAR_CE32 = 0xFEFF0505 ∧
    isSpecialCE32 MERGE_SEPARATOR_CE32 = false ∧ isSpecialCE32 MAX_REGULAR_CE32 = false ∧
    primaryField (ceFromCE32 MERGE_SEPARATOR_CE32) = MERGE_SEPARATOR_PRIMARY ∧
    lower32 (ceFromCE32 MERGE_SEPARATOR_CE32) = MERGE_SEPARATOR_LOWER32 ∧
    secondaryField (ceFromCE32 MERGE_SEPARATOR_CE32) = MERGE_SEPARATOR_WEIGHT16 ∧
    tertiaryField (ceFromCE32 MERGE_SEPARATOR_CE32) = MERGE_SEPARATOR_WEIGHT16 ∧
    primaryField (ceFromCE32 MAX_REGULAR_CE32) = MAX_PRIMARY ∧
    lower32 (ceFromCE32 MAX_REGULAR_CE32) = COMMON_SEC_AND_TER_CE := by
  decide

/-- C26: `ceFromCE32` is not injective across the three non-special forms: the normal-form
`0x12340505` and the long-primary `0x12340001` decode to the same CE (primary `0x12340000`,
common secondary and tertiary), and the normal-form `0x00000505` and the long-secondary
`0x05000500` both decode to `0x0000000005000500`; within a single form it is injective. -/
theorem C26_ceFromCE32_injectivity :
    ((0x12340505 : Nat) ≠ 0x12340001 ∧
      isSpecialCE32 0x12340505 = false ∧ isSpecialCE32 0x12340001 = false ∧
      ceFromCE32 0x12340505 = ceFromCE32 0x12340001 ∧
      primaryField (ceFromCE32 0x12340505) = 0x12340000 ∧
      lower32 (ceFromCE32 0x12340505) = COMMON_SEC_AND_TER_CE) ∧
    ((0x00000505 : Nat) ≠ 0x05000500 ∧
      isSpecialCE32 0x00000505 = false ∧ isSpecialCE32 0x05000500 = false ∧
      ceFromCE32 0x00000505 = ceFromCE32 0x05000500 ∧
      bits64 (ceFromCE32 0x00000505) = 0x0000000005000500) ∧
    (∀ a b : Nat, a < 2 ^ 32 → b < 2 ^ 32 →
      (a &&& 0xff > 1 ∧ b &&& 0xff > 1) ∨ (a &&& 0xff = 1 ∧ b &&& 0xff = 1) ∨
        (a &&& 0xff = 0 ∧ b &&& 0xff = 0) →
      ceFromCE32 a = ceFromCE32 b → a = b) := by
  refine ⟨by decide, by decide, ?_⟩
  intro a b ha hb hform heq
  have hbits := congrArg bits64 heq
  rw [land_ff, land_ff] at hform
  rcases hform with ⟨h1, h2⟩ | ⟨h1, h2⟩ | ⟨h1, h2⟩
  · rw [ceFromCE32_normal_bits a h1, ceFromCE32_normal_bits b h2] at hbits
    have hpa := ce32_parts a ha
    have hpb := ce32_parts b hb
    have hsa : a / 256 % 256 < 256 := by omega
    have hsb : b / 256 % 256 < 256 := by omega
    have hta : a % 256 < 256 := by omega
    have htb : b % 256 < 256 := by omega
    generalize a / 65536 % 65536 = pa at *
    generalize a / 256 % 256 = sa at *
    generalize a % 256 = ta at *
    generalize b / 65536 % 65536 = pb at *
    generalize b / 256 % 256 = sb at *
    generalize b % 256 = tb at *
    omega
  · rw [ceFromCE32_longPrimary_bits a ha h1, ceFromCE32_longPrimary_bits b hb h2] at hbits
    omega
  · rw [ceFromCE32_longSecondary_bits a ha h1, ceFromCE32_longSecondary_bits b hb h2] at hbits
    exact hbits

theorem C26_ceFromCE32_injectivity_witness :
    ((0x12345678 : Nat) < 2 ^ 32 ∧ (0x12345778 : Nat) < 2 ^ 32 ∧
      (0x12345678 : Nat) &&& 0xff > 1 ∧ (0x12345778 : Nat) &&& 0xff > 1) ∧
    ceFromCE32 0x12345678 ≠ ceFromCE32 0x12345778 :=
  ⟨⟨by norm_num, by norm_num, by decide, by decide⟩,
    fun h => absurd
      (C26_ceFromCE32_injectivity.2.2 0x12345678 0x12345778 (by norm_num) (by norm_num)
        (Or.inl ⟨by decide, by decide⟩) h)
      (by decide)⟩

/-- C27: with the 64-bit left shift taken modulo `2^64` and the result read as the signed
`int64_t` that `ceFromCE32` returns, `ceFromCE32 ce32` is negative exactly when bit 31 of
`ce32` is set and the low byte of `ce32` is non-zero; so signed comparison of the results does
not preserve CE32 order: the normal-form non-special `a = 0x7FFF0505 < b = 0x80000505` have
`ceFromCE32 a > ceFromCE32 b`. -/
theorem C27_ceFromCE32_sign (ce32 : Nat) (hce : ce32 < 2 ^ 32) :
    (ceFromCE32 ce32 < 0 ↔ ce32.testBit 31 = true ∧ ce32 &&& 0xff ≠ 0) ∧
    ((0x7FFF0505 : Nat) < 0x80000505 ∧
      isSpecialCE32 0x7FFF0505 = false ∧ isSpecialCE32 0x80000505 = false ∧
      (0x7FFF0505 : Nat) &&& 0xff > 1 ∧ (0x80000505 : Nat) &&& 0xff > 1 ∧
      ceFromCE32 0x7FFF0505 > ceFromCE32 0x80000505) := by
  refine ⟨?_, by decide⟩
  have hlt : bits64 (ceFromCE32 ce32) < 2 ^ 64 := by
    unfold bits64
    omega
  rw [ceFromCE32_toInt64 ce32 hce, toInt64_neg_iff _ hlt, Nat.testBit_to_div_mod,
    decide_eq_true_iff, land_ff]
  by_cases h1 : ce32 % 256 > 1
  · rw [ceFromCE32_normal_bits ce32 h1]
    have hp := ce32_parts ce32 hce
    have hs : ce32 / 256 % 256 < 256 := by omega
    have hd : ce32 / 2 ^ 31 % 2 = 1 ↔ ce32 / 65536 % 65536 ≥ 32768 := by omega
    rw [hd]
    generalize ce32 / 65536 % 65536 = p at *
    generalize ce32 / 256 % 256 = s at *
    omega
  · by_cases h2 : ce32 % 256 = 1
    · rw [ceFromCE32_longPrimary_bits ce32 hce h2]
      omega
    · rw [ceFromCE32_longSecondary_bits ce32 hce (by omega)]
      omega

theorem C27_ceFromCE32_sign_witness :
    (0x80000505 : Nat) < 2 ^ 32 ∧ ceFromCE32 0x80000505 < 0 :=
  ⟨by norm_num, (C27_ceFromCE32_sign 0x80000505 (by norm_num)).1.mpr (by decide)⟩

/-- C28: the case-first getter and the upper-first predicate of `CollationSettings` agree on
well-formed options: for an options word with the `CASE_LEVEL` bit clear where `CASE_FIRST`
clear implies `UPPER_FIRST` clear, `sortsTertiaryUpperCaseFirst` is true iff `getCaseFirst` is
`UCOL_UPPER_FIRST`; and for every options word `sortsTertiaryUpperCaseFirst` implies that
`getCaseFirst` is `UCOL_UPPER_FIRST` and `getTertiaryMask` is `CASE_AND_TERTIARY_MASK`. -/
theorem C28_caseFirst_agreement (o : Int) :
    (and32 o CollationSettings.CASE_LEVEL = 0 →
      (and32 o CollationSettings.CASE_FIRST = 0 → and32 o CollationSettings.UPPER_FIRST = 0) →
      (CollationSettings.sortsTertiaryUpperCaseFirst o = true ↔
        CollationSettings.getCaseFirst o = UColAttributeValue.UCOL_UPPER_FIRST)) ∧
    (CollationSettings.sortsTertiaryUpperCaseFirst o = true →
      CollationSettings.getCaseFirst o = UColAttributeValue.UCOL_UPPER_FIRST ∧
      CollationSettings.getTertiaryMask o = CASE_AND_TERTIARY_MASK) := by
  rw [settings_caseLevel, settings_caseFirst, settings_upperFirst, settings_sorts_eq,
    settings_getCaseFirst_upper_iff, settings_getTertiaryMask_eq, decide_eq_true_iff]
  constructor
  · intro h1 h2
    omega
  · intro h
    refine ⟨by omega, ?_⟩
    rw [if_pos (by omega)]

theorem C28_caseFirst_agreement_witness :
    CollationSettings.sortsTertiaryUpperCaseFirst 0x2310 = true ∧
    CollationSettings.getCaseFirst 0x2310 = UColAttributeValue.UCOL_UPPER_FIRST ∧
    CollationSettings.getTertiaryMask 0x2310 = CASE_AND_TERTIARY_MASK :=
  ⟨by decide, (C28_caseFirst_agreement 0x2310).2 (by decide)⟩

/-- C29: the end-of-input marker is never a decoded CE: `NO_CE` (`0x101000100`) is
`(NO_CE_PRIMARY << 32) | (NO_CE_WEIGHT16 << 16) | NO_CE_WEIGHT16`, and for every 32-bit value
`ce32`, special or not, `ceFromCE32 ce32 ≠ NO_CE`, because the primary field produced by
`ceFromCE32` always has a zero low byte. -/
theorem C29_ceFromCE32_ne_NO_CE (ce32 : Nat) (hce : ce32 < 2 ^ 32) :
    NO_CE = 0x101000100 ∧
    NO_CE = toInt64 (shl64 NO_CE_PRIMARY 32 ||| shl32 NO_CE_WEIGHT16 16 ||| NO_CE_WEIGHT16) ∧
    primaryField NO_CE = NO_CE_PRIMARY ∧
    secondaryField NO_CE = NO_CE_WEIGHT16 ∧
    tertiaryField NO_CE = NO_CE_WEIGHT16 ∧
    primaryField (ceFromCE32 ce32) &&& 0xff = 0 ∧
    ceFromCE32 ce32 ≠ NO_CE := by
  have hlow := ceFromCE32_primary_lowByte ce32 hce
  refine ⟨rfl, by decide, by decide, by decide, by decide, ?_, ?_⟩
  · rw [land_ff]
    exact hlow
  · intro h
    have hp : primaryField NO_CE % 256 = 1 := by decide
    rw [h] at hlow
    omega

theorem C29_ceFromCE32_ne_NO_CE_witness :
    (0xFFFFFFFF : Nat) < 2 ^ 32 ∧ ceFromCE32 0xFFFFFFFF ≠ NO_CE ∧
    primaryField (ceFromCE32 0xFFFFFFFF) &&& 0xff = 0 :=
  have h := C29_ceFromCE32_ne_NO_CE 0xFFFFFFFF (by norm_num)
  ⟨by norm_num, h.2.2.2.2.2.2, h.2.2.2.2.2.1⟩

end Collation
